import Mathlib

/-!
Verification of the resumable multipart upload engine of `upload_large_file.py`
(class `KS3Uploader`).  The Python functions are shallowly embedded as pure
Lean functions; the side effects of `multipart_upload_with_resume` (remote
calls, sleeps, resume-record writes, console error messages) are recorded in
an explicit event trace, and the external world (remote part-upload outcomes,
live multipart sessions, the on-disk resume record) is passed in as data.
-/

/-- Fixed part size, 50 MiB (`part_size = 50 * 1024 * 1024`, line 59). -/
def part_size : Nat := 50 * 1024 * 1024

/-- Single-shot threshold, 100 MiB (`file_size > 100 * 1024 * 1024`, line 42). -/
def single_shot_threshold : Nat := 100 * 1024 * 1024

/-- Number of parts: `part_count = (file_size + part_size - 1) // part_size` (line 60). -/
def part_count (file_size : Nat) : Nat := (file_size + part_size - 1) / part_size

/-- Bytes read for the 0-based loop index `i`:
`data = f.read(min(part_size, file_size - offset))` with `offset = i * part_size`
(lines 93-95). -/
def part_data_len (file_size i : Nat) : Nat := min part_size (file_size - i * part_size)

/-- The list of part lengths produced by the upload loop, in loop order. -/
def plan_lengths (file_size : Nat) : List Nat :=
  (List.range (part_count file_size)).map (part_data_len file_size)

/-- The 1-based part numbers iterated by the loop:
`for i in range(part_count): part_num = i + 1` (lines 88-89). -/
def parts_index_list (file_size : Nat) : List Nat :=
  (List.range (part_count file_size)).map (fun i => i + 1)

theorem part_size_pos : 0 < part_size := by decide

theorem part_count_mul_ge (fs : Nat) : fs ≤ part_count fs * part_size := by
  unfold part_count part_size
  omega

theorem part_count_pred_mul_lt (fs : Nat) (h : 0 < fs) :
    (part_count fs - 1) * part_size < fs := by
  unfold part_count part_size at *
  omega

theorem part_count_pos (fs : Nat) (h : 0 < fs) : 0 < part_count fs := by
  unfold part_count part_size at *
  omega

theorem plan_sum_min (fs : Nat) : ∀ k, ((List.range k).map (part_data_len fs)).sum = min fs (k * part_size) := by
  intro k
  induction k with
  | zero => simp
  | succ k ih =>
    rw [List.range_succ, List.map_append, List.sum_append]
    simp only [List.map_cons, List.map_nil, List.sum_cons, List.sum_nil, ih, part_data_len]
    have hps : part_size = 52428800 := by decide
    rw [hps]
    rcases Nat.le_total fs (k * 52428800) with hle | hle <;>
      rcases Nat.le_total fs ((k + 1) * 52428800) with hle2 | hle2 <;>
      omega

/-- C1: for every `file_size > 0` with the fixed 50 MiB `part_size`, the chunk plan
of `multipart_upload_with_resume` has `part_count = ceil(file_size / part_size)`
(characterized by `file_size ≤ part_count * part_size` and
`(part_count - 1) * part_size < file_size`); part `i` (1-indexed) reads
`min(part_size, file_size - (i-1)*part_size)` bytes at offset `(i-1)*part_size`;
every part except the last has length exactly `part_size`; the last part has
length `file_size - (part_count-1)*part_size`; and the lengths sum to `file_size`. -/
theorem C1_chunk_plan (fs : Nat) (h : 0 < fs) :
    (fs ≤ part_count fs * part_size ∧ (part_count fs - 1) * part_size < fs) ∧
    (∀ i, 1 ≤ i → i ≤ part_count fs →
      (plan_lengths fs)[i - 1]? = some (min part_size (fs - (i - 1) * part_size))) ∧
    (∀ i, 1 ≤ i → i < part_count fs → (plan_lengths fs)[i - 1]? = some part_size) ∧
    (plan_lengths fs)[part_count fs - 1]? =
      some (fs - (part_count fs - 1) * part_size) ∧
    (plan_lengths fs).sum = fs := by
  have hmul := part_count_mul_ge fs
  have hpred := part_count_pred_mul_lt fs h
  have hpos := part_count_pos fs h
  have hget : ∀ i, 1 ≤ i → i ≤ part_count fs →
      (plan_lengths fs)[i - 1]? = some (min part_size (fs - (i - 1) * part_size)) := by
    intro i h1 h2
    unfold plan_lengths
    rw [List.getElem?_map]
    have hlt : i - 1 < part_count fs := by omega
    rw [List.getElem?_range hlt]
    rfl
  refine ⟨⟨hmul, hpred⟩, hget, ?_, ?_, ?_⟩
  · intro i h1 h2
    rw [hget i h1 (Nat.le_of_lt h2)]
    have hge : part_size ≤ fs - (i - 1) * part_size := by
      clear hmul hpred hpos hget
      unfold part_count part_size at *
      omega
    rw [Nat.min_eq_left hge]
  · rw [hget (part_count fs) hpos (Nat.le_refl _)]
    have hle : fs - (part_count fs - 1) * part_size ≤ part_size := by
      clear hmul hpred hpos hget
      unfold part_count part_size at *
      omega
    rw [Nat.min_eq_right hle]
  · unfold plan_lengths
    rw [plan_sum_min]
    exact Nat.min_eq_left hmul

theorem C1_chunk_plan_witness :
    0 < 52428801 ∧
    ((52428801 ≤ part_count 52428801 * part_size ∧
      (part_count 52428801 - 1) * part_size < 52428801) ∧
    (∀ i, 1 ≤ i → i ≤ part_count 52428801 →
      (plan_lengths 52428801)[i - 1]? = some (min part_size (52428801 - (i - 1) * part_size))) ∧
    (∀ i, 1 ≤ i → i < part_count 52428801 → (plan_lengths 52428801)[i - 1]? = some part_size) ∧
    (plan_lengths 52428801)[part_count 52428801 - 1]? =
      some (52428801 - (part_count 52428801 - 1) * part_size) ∧
    (plan_lengths 52428801).sum = 52428801) :=
  ⟨by decide, C1_chunk_plan 52428801 (by decide)⟩

/-- A part acknowledged by the remote service: the dict
`{"part_num": ..., "etag": ..., "size": ...}` appended at lines 101-110. -/
structure PartRecord where
  part_num : Nat
  etag : String
  size : Nat
deriving Repr, DecidableEq

/-- Content of the resume record `{"upload_id": ..., "parts": [...]}` (lines 66-67, 73). -/
structure ResumeData where
  upload_id : String
  parts : List PartRecord
deriving Repr, DecidableEq

/-- Result of a Python call: a returned value or a raised exception. -/
inductive PyResult (α : Type) where
  | ret (v : α)
  | exc (msg : String)
deriving Repr, DecidableEq

/-- Observable effects of `multipart_upload_with_resume`, in program order. -/
inductive Event where
  | initiate
  | listSessions
  | uploadAttempt (part_num attempt : Nat)
  | sleep (d : Nat)
  | persist (d : ResumeData)
  | printMsg (s : String)
  | cancel
  | complete
  | removeRecord
deriving Repr, DecidableEq

/-- Error message of line 81. -/
def session_not_found_msg : String := "❌ 无法找到上传任务，终止续传。"

/-- Error message of line 119. -/
def part_failed_msg (part_num : Nat) : String :=
  "❌ 分片 " ++ toString part_num ++ " 连续重试失败，取消上传任务。"

/-- Warning message of line 116. -/
def retry_msg (part_num attempt : Nat) (e : String) : String :=
  "⚠️ 分片 " ++ toString part_num ++ " 上传失败，重试 " ++ toString (attempt + 1) ++ "/3: " ++ e

/-- Result of `os.path.basename` on a POSIX path: the suffix after the last slash. -/
def basename (p : String) : String :=
  String.mk ((p.data.reverse.takeWhile (fun c => c != '/')).reverse)

/-- Resume-record path: `f".resume_{os.path.basename(local_path)}.json"` (line 61). -/
def resume_path (local_path : String) : String :=
  ".resume_" ++ basename local_path ++ ".json"

/-- The 1-based part numbers present in the loaded record:
`uploaded_parts = {int(p["part_num"]): p for p in resume_data["parts"]}` (line 67),
used only through `part_num in uploaded_parts` (line 90). -/
def uploaded_part_nums (rd : ResumeData) : List Nat :=
  rd.parts.map (fun r => r.part_num)

/-- The retry loop `for attempt in range(3)` (lines 97-117), unrolled: on each
failed attempt the code prints a warning and sleeps `2 ** attempt` time-units;
on success it returns the ETag.  The remote outcome of attempt `a` on part `pn`
is `oracle pn a` (an ETag, or an exception message). -/
def attempt_events (oracle : Nat → Nat → Except String String) (pn : Nat) :
    List Event × Option String :=
  match oracle pn 0 with
  | .ok e0 => ([.uploadAttempt pn 0], some e0)
  | .error m0 =>
    match oracle pn 1 with
    | .ok e1 =>
      ([.uploadAttempt pn 0, .printMsg (retry_msg pn 0 m0), .sleep 1,
        .uploadAttempt pn 1], some e1)
    | .error m1 =>
      match oracle pn 2 with
      | .ok e2 =>
        ([.uploadAttempt pn 0, .printMsg (retry_msg pn 0 m0), .sleep 1,
          .uploadAttempt pn 1, .printMsg (retry_msg pn 1 m1), .sleep 2,
          .uploadAttempt pn 2], some e2)
      | .error m2 =>
        ([.uploadAttempt pn 0, .printMsg (retry_msg pn 0 m0), .sleep 1,
          .uploadAttempt pn 1, .printMsg (retry_msg pn 1 m1), .sleep 2,
          .uploadAttempt pn 2, .printMsg (retry_msg pn 2 m2), .sleep 4], none)

/-- Whether part `pn` is uploaded within the 3 attempts of the retry loop. -/
def succ3 (oracle : Nat → Nat → Except String String) (pn : Nat) : Bool :=
  (oracle pn 0).isOk || (oracle pn 1).isOk || (oracle pn 2).isOk

/-- Result of the part loop: accumulated trace, the in-memory `resume_data`,
the in-memory `parts` list, and whether the loop ran to completion
(`false` means the for-else at lines 118-121 fired: cancel and return None). -/
structure LoopOut where
  trace : List Event
  rd : ResumeData
  mem : List PartRecord
  ok : Bool
deriving Repr, DecidableEq

/-- The part loop (lines 88-121): for each `part_num`, skip it when already in
`uploaded_parts`; otherwise read its byte range, run the retry loop, and on
success append `{part_num, etag, size}` to both `parts` and
`resume_data["parts"]` and rewrite the resume file, else cancel the session. -/
def upload_loop (oracle : Nat → Nat → Except String String) (file_size : Nat)
    (uploaded : List Nat) : List Nat → ResumeData → List PartRecord → LoopOut
  | [], rd, mem => ⟨[], rd, mem, true⟩
  | pn :: rest, rd, mem =>
    if pn ∈ uploaded then
      upload_loop oracle file_size uploaded rest rd mem
    else
      let len := min part_size (file_size - (pn - 1) * part_size)
      let a := attempt_events oracle pn
      match a.2 with
      | some etag =>
        let r0 : PartRecord := ⟨pn, etag, len⟩
        let rd' : ResumeData := ⟨rd.upload_id, rd.parts ++ [r0]⟩
        let res := upload_loop oracle file_size uploaded rest rd' (mem ++ [r0])
        ⟨a.1 ++ .persist rd' :: res.trace, res.rd, res.mem, res.ok⟩
      | none =>
        ⟨a.1 ++ [.printMsg (part_failed_msg pn), .cancel], rd, mem, false⟩

/-- Result of one call of `multipart_upload_with_resume`: the event trace, the
resume-record path it used, the on-disk record after the call, the final
in-memory `resume_data` and `parts`, and the Python-level outcome. -/
structure RunOut where
  trace : List Event
  resumePath : String
  disk : Option ResumeData
  resumeData : ResumeData
  memParts : List PartRecord
  result : PyResult (Option String)
deriving Repr, DecidableEq

/-- The `upload_id` the run works with: from the loaded record when the resume
file exists (line 66), else the id of the freshly initiated session (line 71). -/
def loaded_upload_id (disk0 : Option ResumeData) (new_upload_id : String) : String :=
  match disk0 with
  | some rd => rd.upload_id
  | none => new_upload_id

/-- The in-memory `resume_data` right after the branch at lines 63-75. -/
def loaded_rd (disk0 : Option ResumeData) (new_upload_id : String) : ResumeData :=
  match disk0 with
  | some rd => rd
  | none => ⟨new_upload_id, []⟩

/-- The part loop as run by `multipart_upload_with_resume` on in-memory state `rd`. -/
def run_loop (oracle : Nat → Nat → Except String String) (fs : Nat) (rd : ResumeData) :
    LoopOut :=
  upload_loop oracle fs (uploaded_part_nums rd) (parts_index_list fs) rd rd.parts

/-- Events of the branch at lines 63-75: a fresh run initiates a remote session
and writes an initial resume record `{"upload_id": id, "parts": []}`; a resuming
run only reads the existing record. -/
def branch_events (disk0 : Option ResumeData) (new_upload_id : String) : List Event :=
  match disk0 with
  | some _ => []
  | none => [.initiate, .persist ⟨new_upload_id, []⟩]

/-- The part-upload phase and finalization (lines 84-127), entered once the
session lookup at lines 77-82 has succeeded: run the part loop; if it completes,
call `complete_upload()` (an exception there propagates), remove the resume file
and return the object address; if a part exhausted its retries, return None. -/
def multipart_after_found (bucket_name remote_key local_path : String)
    (disk0 : Option ResumeData) (new_upload_id : String)
    (oracle : Nat → Nat → Except String String)
    (complete_ok : Bool) (file_size : Nat) : RunOut :=
  let rd := loaded_rd disk0 new_upload_id
  let lo := run_loop oracle file_size rd
  if lo.ok then
    if complete_ok then
      ⟨branch_events disk0 new_upload_id ++ Event.listSessions :: lo.trace ++
         [Event.complete, Event.removeRecord],
       resume_path local_path, none, lo.rd, lo.mem,
       .ret (some ("ks3://" ++ bucket_name ++ "/" ++ remote_key))⟩
    else
      ⟨branch_events disk0 new_upload_id ++ Event.listSessions :: lo.trace ++
         [Event.complete],
       resume_path local_path, some lo.rd, lo.rd, lo.mem, .exc "complete_upload failed"⟩
  else
    ⟨branch_events disk0 new_upload_id ++ Event.listSessions :: lo.trace,
     resume_path local_path, some lo.rd, lo.rd, lo.mem, .ret none⟩

/-- Shallow embedding of `multipart_upload_with_resume` (lines 58-127).
Inputs standing for the outside world: `disk0` is the parsed resume record when
the resume file exists; `new_upload_id` the id a fresh `initiate_multipart_upload`
would return; `live_session_ids` the ids listed by `get_all_multipart_uploads`
for the target key; `oracle` the remote outcome of each part-upload attempt;
`complete_ok` whether `complete_upload()` succeeds.  When the session lookup
finds no live session with the loaded or created `upload_id` (lines 77-82), the
run prints the fatal message and returns None without touching any part. -/
def multipart_upload_with_resume (bucket_name remote_key local_path : String)
    (disk0 : Option ResumeData) (new_upload_id : String)
    (live_session_ids : List String)
    (oracle : Nat → Nat → Except String String)
    (complete_ok : Bool) (file_size : Nat) : RunOut :=
  if (loaded_rd disk0 new_upload_id).upload_id ∈ live_session_ids then
    multipart_after_found bucket_name remote_key local_path disk0 new_upload_id
      oracle complete_ok file_size
  else
    ⟨branch_events disk0 new_upload_id ++
       [Event.listSessions, Event.printMsg session_not_found_msg],
     resume_path local_path, some (loaded_rd disk0 new_upload_id),
     loaded_rd disk0 new_upload_id, (loaded_rd disk0 new_upload_id).parts, .ret none⟩

/-- The part numbers the loop still has to upload: those of the plan not in the
loaded record (the skip test at lines 90-91), in loop order. -/
def eligible (uploaded il : List Nat) : List Nat :=
  il.filter (fun n => decide (n ∉ uploaded))

/-- Part numbers whose upload is started by a run, in the order their first
attempt (attempt 0) appears in the trace. -/
def first_attempts (t : List Event) : List Nat :=
  t.filterMap (fun e =>
    match e with
    | .uploadAttempt n 0 => some n
    | _ => none)

/-- Expected started-part list over the pending parts: every part up to and
including the first one that exhausts its 3 attempts. -/
def att_expected (oracle : Nat → Nat → Except String String) : List Nat → List Nat
  | [] => []
  | k :: rest => if succ3 oracle k then k :: att_expected oracle rest else [k]

theorem attempt_events_isSome (oracle : Nat → Nat → Except String String) (pn : Nat) :
    (attempt_events oracle pn).2.isSome = succ3 oracle pn := by
  cases h0 : oracle pn 0 with
  | ok e0 => simp [attempt_events, succ3, h0, Except.isOk, Except.toBool]
  | error m0 =>
    cases h1 : oracle pn 1 with
    | ok e1 => simp [attempt_events, succ3, h0, h1, Except.isOk, Except.toBool]
    | error m1 =>
      cases h2 : oracle pn 2 with
      | ok e2 => simp [attempt_events, succ3, h0, h1, h2, Except.isOk, Except.toBool]
      | error m2 => simp [attempt_events, succ3, h0, h1, h2, Except.isOk, Except.toBool]

theorem first_attempts_append (s t : List Event) :
    first_attempts (s ++ t) = first_attempts s ++ first_attempts t := by
  unfold first_attempts
  exact List.filterMap_append s t _

theorem first_attempts_persist_cons (d : ResumeData) (t : List Event) :
    first_attempts (Event.persist d :: t) = first_attempts t := rfl

theorem first_attempts_attempt_events (oracle : Nat → Nat → Except String String) (pn : Nat) :
    first_attempts (attempt_events oracle pn).1 = [pn] := by
  cases h0 : oracle pn 0 with
  | ok e0 => simp [attempt_events, first_attempts, h0]
  | error m0 =>
    cases h1 : oracle pn 1 with
    | ok e1 => simp [attempt_events, first_attempts, h0, h1]
    | error m1 =>
      cases h2 : oracle pn 2 with
      | ok e2 => simp [attempt_events, first_attempts, h0, h1, h2]
      | error m2 => simp [attempt_events, first_attempts, h0, h1, h2]

theorem attempt_events_kinds (oracle : Nat → Nat → Except String String) (pn : Nat) :
    ∀ e ∈ (attempt_events oracle pn).1,
      (∃ a, e = Event.uploadAttempt pn a) ∨ (∃ s, e = Event.printMsg s) ∨
      (∃ d, e = Event.sleep d) := by
  intro e he
  cases h0 : oracle pn 0 with
  | ok e0 =>
    simp [attempt_events, h0] at he
    subst he; exact Or.inl ⟨0, rfl⟩
  | error m0 =>
    cases h1 : oracle pn 1 with
    | ok e1 =>
      simp [attempt_events, h0, h1] at he
      rcases he with rfl | rfl | rfl | rfl
      · exact Or.inl ⟨0, rfl⟩
      · exact Or.inr (Or.inl ⟨_, rfl⟩)
      · exact Or.inr (Or.inr ⟨_, rfl⟩)
      · exact Or.inl ⟨1, rfl⟩
    | error m1 =>
      cases h2 : oracle pn 2 with
      | ok e2 =>
        simp [attempt_events, h0, h1, h2] at he
        rcases he with rfl | rfl | rfl | rfl | rfl | rfl | rfl
        · exact Or.inl ⟨0, rfl⟩
        · exact Or.inr (Or.inl ⟨_, rfl⟩)
        · exact Or.inr (Or.inr ⟨_, rfl⟩)
        · exact Or.inl ⟨1, rfl⟩
        · exact Or.inr (Or.inl ⟨_, rfl⟩)
        · exact Or.inr (Or.inr ⟨_, rfl⟩)
        · exact Or.inl ⟨2, rfl⟩
      | error m2 =>
        simp [attempt_events, h0, h1, h2] at he
        rcases he with rfl | rfl | rfl | rfl | rfl | rfl | rfl | rfl | rfl
        · exact Or.inl ⟨0, rfl⟩
        · exact Or.inr (Or.inl ⟨_, rfl⟩)
        · exact Or.inr (Or.inr ⟨_, rfl⟩)
        · exact Or.inl ⟨1, rfl⟩
        · exact Or.inr (Or.inl ⟨_, rfl⟩)
        · exact Or.inr (Or.inr ⟨_, rfl⟩)
        · exact Or.inl ⟨2, rfl⟩
        · exact Or.inr (Or.inl ⟨_, rfl⟩)
        · exact Or.inr (Or.inr ⟨_, rfl⟩)

theorem upload_loop_spec (oracle : Nat → Nat → Except String String) (fs : Nat)
    (u : List Nat) : ∀ il rd mem, ∃ R : List PartRecord,
    (upload_loop oracle fs u il rd mem).rd = ⟨rd.upload_id, rd.parts ++ R⟩ ∧
    (upload_loop oracle fs u il rd mem).mem = mem ++ R ∧
    R.map (fun r => r.part_num) = (eligible u il).takeWhile (succ3 oracle) ∧
    (upload_loop oracle fs u il rd mem).ok = (eligible u il).all (succ3 oracle) ∧
    first_attempts (upload_loop oracle fs u il rd mem).trace =
      att_expected oracle (eligible u il) ∧
    (∀ n a, Event.uploadAttempt n a ∈ (upload_loop oracle fs u il rd mem).trace → n ∉ u) := by
  intro il
  induction il with
  | nil =>
    intro rd mem
    refine ⟨[], ?_, ?_, ?_, ?_, ?_, ?_⟩ <;>
      simp [upload_loop, eligible, first_attempts, att_expected]
  | cons pn rest ih =>
    intro rd mem
    by_cases hu : pn ∈ u
    · have heq : eligible u (pn :: rest) = eligible u rest := by
        simp [eligible, List.filter_cons, hu]
      have hloop : upload_loop oracle fs u (pn :: rest) rd mem =
          upload_loop oracle fs u rest rd mem := by
        simp [upload_loop, hu]
      rw [hloop, heq]
      exact ih rd mem
    · have heq : eligible u (pn :: rest) = pn :: eligible u rest := by
        simp [eligible, List.filter_cons, hu]
      cases ha : (attempt_events oracle pn).2 with
      | some etag =>
        have hs : succ3 oracle pn = true := by
          rw [← attempt_events_isSome, ha]; rfl
        have hloop : upload_loop oracle fs u (pn :: rest) rd mem =
            ⟨(attempt_events oracle pn).1 ++ Event.persist
               ⟨rd.upload_id, rd.parts ++
                 [⟨pn, etag, min part_size (fs - (pn - 1) * part_size)⟩]⟩ ::
               (upload_loop oracle fs u rest
                 ⟨rd.upload_id, rd.parts ++
                   [⟨pn, etag, min part_size (fs - (pn - 1) * part_size)⟩]⟩
                 (mem ++ [⟨pn, etag, min part_size (fs - (pn - 1) * part_size)⟩])).trace,
             (upload_loop oracle fs u rest
                 ⟨rd.upload_id, rd.parts ++
                   [⟨pn, etag, min part_size (fs - (pn - 1) * part_size)⟩]⟩
                 (mem ++ [⟨pn, etag, min part_size (fs - (pn - 1) * part_size)⟩])).rd,
             (upload_loop oracle fs u rest
                 ⟨rd.upload_id, rd.parts ++
                   [⟨pn, etag, min part_size (fs - (pn - 1) * part_size)⟩]⟩
                 (mem ++ [⟨pn, etag, min part_size (fs - (pn - 1) * part_size)⟩])).mem,
             (upload_loop oracle fs u rest
                 ⟨rd.upload_id, rd.parts ++
                   [⟨pn, etag, min part_size (fs - (pn - 1) * part_size)⟩]⟩
                 (mem ++ [⟨pn, etag, min part_size (fs - (pn - 1) * part_size)⟩])).ok⟩ := by
          simp [upload_loop, hu, ha]
        set r0 : PartRecord := ⟨pn, etag, min part_size (fs - (pn - 1) * part_size)⟩ with hr0
        obtain ⟨R', h1, h2, h3, h4, h5, h6⟩ :=
          ih ⟨rd.upload_id, rd.parts ++ [r0]⟩ (mem ++ [r0])
        refine ⟨r0 :: R', ?_, ?_, ?_, ?_, ?_, ?_⟩
        · rw [hloop]; rw [h1]; simp
        · rw [hloop]; rw [h2]; simp
        · simp only [List.map_cons, h3, heq, hr0]
          rw [List.takeWhile_cons]
          simp [hs]
        · rw [hloop]; rw [h4, heq]
          simp [hs]
        · rw [hloop, first_attempts_append, first_attempts_persist_cons,
            first_attempts_attempt_events oracle pn, h5, heq]
          simp [att_expected, hs]
        · rw [hloop]
          intro n a hmem
          rcases List.mem_append.mp hmem with hA | hB
          · rcases attempt_events_kinds oracle pn _ hA with ⟨a', he⟩ | ⟨s, he⟩ | ⟨d, he⟩
            · cases he; exact hu
            · exact absurd he (by simp)
            · exact absurd he (by simp)
          · rcases List.mem_cons.mp hB with he | he
            · exact absurd he (by simp)
            · exact h6 n a he
      | none =>
        have hs : succ3 oracle pn = false := by
          rw [← attempt_events_isSome, ha]; rfl
        have hloop : upload_loop oracle fs u (pn :: rest) rd mem =
            ⟨(attempt_events oracle pn).1 ++
               [Event.printMsg (part_failed_msg pn), Event.cancel], rd, mem, false⟩ := by
          simp [upload_loop, hu, ha]
        refine ⟨[], ?_, ?_, ?_, ?_, ?_, ?_⟩
        · rw [hloop]; simp
        · rw [hloop]; simp
        · simp [heq, List.takeWhile_cons, hs]
        · rw [hloop, heq]; simp [hs]
        · rw [hloop, first_attempts_append, first_attempts_attempt_events oracle pn, heq]
          simp [att_expected, hs, first_attempts]
        · rw [hloop]
          intro n a hmem
          rcases List.mem_append.mp hmem with hA | hB
          · rcases attempt_events_kinds oracle pn _ hA with ⟨a', he⟩ | ⟨s, he⟩ | ⟨d, he⟩
            · cases he; exact hu
            · exact absurd he (by simp)
            · exact absurd he (by simp)
          · simp at hB

theorem att_expected_extend (oracle : Nat → Nat → Except String String) :
    ∀ l, ∃ t, att_expected oracle l ++ t = l := by
  intro l
  induction l with
  | nil => exact ⟨[], rfl⟩
  | cons k rest ih =>
    by_cases hk : succ3 oracle k = true
    · obtain ⟨t, ht⟩ := ih
      exact ⟨t, by simp [att_expected, hk, ht]⟩
    · exact ⟨rest, by simp [att_expected, hk]⟩

theorem att_expected_of_all (oracle : Nat → Nat → Except String String) :
    ∀ l, l.all (succ3 oracle) = true → att_expected oracle l = l := by
  intro l
  induction l with
  | nil => intro; rfl
  | cons k rest ih =>
    intro h
    rw [List.all_cons, Bool.and_eq_true] at h
    simp [att_expected, h.1, ih h.2]

theorem att_expected_sublist (oracle : Nat → Nat → Except String String) (l : List Nat) :
    List.Sublist (att_expected oracle l) l := by
  obtain ⟨t, ht⟩ := att_expected_extend oracle l
  have := List.sublist_append_left (att_expected oracle l) t
  rwa [ht] at this

theorem pairwise_parts_index (fs : Nat) :
    List.Pairwise (· < ·) (parts_index_list fs) := by
  unfold parts_index_list
  rw [List.pairwise_map]
  exact (List.pairwise_lt_range _).imp (by omega)

theorem pairwise_eligible (u : List Nat) (fs : Nat) :
    List.Pairwise (· < ·) (eligible u (parts_index_list fs)) :=
  List.Pairwise.sublist (List.filter_sublist _) (pairwise_parts_index fs)

theorem nodup_eligible (u : List Nat) (fs : Nat) :
    (eligible u (parts_index_list fs)).Nodup :=
  (pairwise_eligible u fs).imp (fun h => Nat.ne_of_lt h)

theorem upload_loop_cancel (oracle : Nat → Nat → Except String String) (fs : Nat)
    (u : List Nat) : ∀ il rd mem, (upload_loop oracle fs u il rd mem).ok = false →
    Event.cancel ∈ (upload_loop oracle fs u il rd mem).trace := by
  intro il
  induction il with
  | nil => intro rd mem h; simp [upload_loop] at h
  | cons pn rest ih =>
    intro rd mem h
    by_cases hu : pn ∈ u
    · simp only [upload_loop, if_pos hu] at h ⊢
      exact ih rd mem h
    · cases ha : (attempt_events oracle pn).2 with
      | some etag =>
        simp only [upload_loop, if_neg hu, ha] at h ⊢
        exact List.mem_append_right _ (List.mem_cons_of_mem _ (ih _ _ h))
      | none =>
        simp only [upload_loop, if_neg hu, ha] at h ⊢
        simp

theorem first_attempts_listSessions_cons (t : List Event) :
    first_attempts (Event.listSessions :: t) = first_attempts t := rfl

theorem first_attempts_initiate_cons (t : List Event) :
    first_attempts (Event.initiate :: t) = first_attempts t := rfl

theorem first_attempts_terminators :
    first_attempts [Event.complete, Event.removeRecord] = [] ∧
    first_attempts [Event.complete] = [] ∧ first_attempts ([] : List Event) = [] :=
  ⟨rfl, rfl, rfl⟩



theorem multipart_found_ok_ctrue (b k p : String) (disk0 : Option ResumeData)
    (nid : String) (live : List String) (oracle : Nat → Nat → Except String String)
    (fs : Nat) (hfound : (loaded_rd disk0 nid).upload_id ∈ live)
    (hok : (run_loop oracle fs (loaded_rd disk0 nid)).ok = true) :
    multipart_upload_with_resume b k p disk0 nid live oracle true fs =
      ⟨branch_events disk0 nid ++ Event.listSessions ::
         (run_loop oracle fs (loaded_rd disk0 nid)).trace ++
         [Event.complete, Event.removeRecord],
       resume_path p, none, (run_loop oracle fs (loaded_rd disk0 nid)).rd,
       (run_loop oracle fs (loaded_rd disk0 nid)).mem,
       .ret (some ("ks3://" ++ b ++ "/" ++ k))⟩ := by
  unfold multipart_upload_with_resume
  rw [if_pos hfound]
  unfold multipart_after_found
  rw [if_pos hok]
  rfl

theorem multipart_found_ok_cfalse (b k p : String) (disk0 : Option ResumeData)
    (nid : String) (live : List String) (oracle : Nat → Nat → Except String String)
    (fs : Nat) (hfound : (loaded_rd disk0 nid).upload_id ∈ live)
    (hok : (run_loop oracle fs (loaded_rd disk0 nid)).ok = true) :
    multipart_upload_with_resume b k p disk0 nid live oracle false fs =
      ⟨branch_events disk0 nid ++ Event.listSessions ::
         (run_loop oracle fs (loaded_rd disk0 nid)).trace ++ [Event.complete],
       resume_path p, some (run_loop oracle fs (loaded_rd disk0 nid)).rd,
       (run_loop oracle fs (loaded_rd disk0 nid)).rd,
       (run_loop oracle fs (loaded_rd disk0 nid)).mem,
       .exc "complete_upload failed"⟩ := by
  unfold multipart_upload_with_resume
  rw [if_pos hfound]
  unfold multipart_after_found
  rw [if_pos hok]
  rfl

theorem multipart_found_abort (b k p : String) (disk0 : Option ResumeData)
    (nid : String) (live : List String) (oracle : Nat → Nat → Except String String)
    (c : Bool) (fs : Nat) (hfound : (loaded_rd disk0 nid).upload_id ∈ live)
    (hok : (run_loop oracle fs (loaded_rd disk0 nid)).ok = false) :
    multipart_upload_with_resume b k p disk0 nid live oracle c fs =
      ⟨branch_events disk0 nid ++ Event.listSessions ::
         (run_loop oracle fs (loaded_rd disk0 nid)).trace,
       resume_path p, some (run_loop oracle fs (loaded_rd disk0 nid)).rd,
       (run_loop oracle fs (loaded_rd disk0 nid)).rd,
       (run_loop oracle fs (loaded_rd disk0 nid)).mem, .ret none⟩ := by
  unfold multipart_upload_with_resume
  rw [if_pos hfound]
  unfold multipart_after_found
  rw [if_neg (by simp [hok])]

theorem multipart_notfound (b k p : String) (disk0 : Option ResumeData)
    (nid : String) (live : List String) (oracle : Nat → Nat → Except String String)
    (c : Bool) (fs : Nat) (hnf : (loaded_rd disk0 nid).upload_id ∉ live) :
    multipart_upload_with_resume b k p disk0 nid live oracle c fs =
      ⟨branch_events disk0 nid ++
         [Event.listSessions, Event.printMsg session_not_found_msg],
       resume_path p, some (loaded_rd disk0 nid), loaded_rd disk0 nid,
       (loaded_rd disk0 nid).parts, .ret none⟩ := by
  unfold multipart_upload_with_resume
  rw [if_neg hnf]

theorem run_loop_spec (oracle : Nat → Nat → Except String String) (fs : Nat)
    (rd : ResumeData) : ∃ R : List PartRecord,
    (run_loop oracle fs rd).rd = ⟨rd.upload_id, rd.parts ++ R⟩ ∧
    (run_loop oracle fs rd).mem = rd.parts ++ R ∧
    R.map (fun r => r.part_num) =
      (eligible (uploaded_part_nums rd) (parts_index_list fs)).takeWhile (succ3 oracle) ∧
    (run_loop oracle fs rd).ok =
      (eligible (uploaded_part_nums rd) (parts_index_list fs)).all (succ3 oracle) ∧
    first_attempts (run_loop oracle fs rd).trace =
      att_expected oracle (eligible (uploaded_part_nums rd) (parts_index_list fs)) ∧
    (∀ n a, Event.uploadAttempt n a ∈ (run_loop oracle fs rd).trace →
      n ∉ uploaded_part_nums rd) :=
  upload_loop_spec oracle fs (uploaded_part_nums rd) (parts_index_list fs) rd rd.parts

theorem multipart_resume_trace_shape (b k p nid : String) (rdl : ResumeData)
    (live : List String) (oracle : Nat → Nat → Except String String) (c : Bool)
    (fs : Nat) (hfound : rdl.upload_id ∈ live) :
    ∃ tail, (multipart_upload_with_resume b k p (some rdl) nid live oracle c fs).trace =
      Event.listSessions :: (run_loop oracle fs rdl).trace ++ tail ∧
      first_attempts tail = [] ∧
      (∀ e ∈ tail, e = Event.complete ∨ e = Event.removeRecord) := by
  cases hok : (run_loop oracle fs rdl).ok with
  | true =>
    cases c with
    | true =>
      refine ⟨[Event.complete, Event.removeRecord], ?_, rfl, ?_⟩
      · rw [multipart_found_ok_ctrue b k p (some rdl) nid live oracle fs hfound hok]
        rfl
      · intro e he
        rcases List.mem_cons.mp he with rfl | he
        · exact Or.inl rfl
        · rcases List.mem_cons.mp he with rfl | he
          · exact Or.inr rfl
          · simp at he
    | false =>
      refine ⟨[Event.complete], ?_, rfl, ?_⟩
      · rw [multipart_found_ok_cfalse b k p (some rdl) nid live oracle fs hfound hok]
        rfl
      · intro e he
        rcases List.mem_cons.mp he with rfl | he
        · exact Or.inl rfl
        · simp at he
  | false =>
    refine ⟨[], ?_, rfl, ?_⟩
    · rw [multipart_found_abort b k p (some rdl) nid live oracle c fs hfound hok,
        List.append_nil]
      rfl
    · intro e he
      simp at he

theorem multipart_resume_first_attempts (b k p nid : String) (rdl : ResumeData)
    (live : List String) (oracle : Nat → Nat → Except String String) (c : Bool)
    (fs : Nat) (hfound : rdl.upload_id ∈ live) :
    first_attempts
      (multipart_upload_with_resume b k p (some rdl) nid live oracle c fs).trace =
      att_expected oracle (eligible (uploaded_part_nums rdl) (parts_index_list fs)) := by
  obtain ⟨tail, htr, hta, htail⟩ :=
    multipart_resume_trace_shape b k p nid rdl live oracle c fs hfound
  obtain ⟨R, _, _, _, _, m5, m6⟩ := run_loop_spec oracle fs rdl
  rw [htr, first_attempts_append, first_attempts_listSessions_cons, hta,
    List.append_nil, m5]

/-- C2: on a resuming run whose session lookup succeeds, the parts whose upload
is started are attempted in strictly ascending part-number order; a part number
present in the loaded resume record is never uploaded again (no upload attempt
for it appears in the trace); the started parts form a leading segment of the
pending parts (the plan indices `1..part_count` minus the recorded ones, in
order), and when every pending part succeeds within its retries, exactly the
pending parts are uploaded — so with parts 1 and 2 recorded out of a 4-part
plan, exactly parts 3 and 4 are transmitted. -/
theorem C2_resume_skips_recorded (b k p nid : String) (rdl : ResumeData)
    (live : List String) (oracle : Nat → Nat → Except String String) (c : Bool)
    (fs : Nat) (hfound : rdl.upload_id ∈ live) :
    List.Pairwise (· < ·) (first_attempts
      (multipart_upload_with_resume b k p (some rdl) nid live oracle c fs).trace) ∧
    (∀ n a, n ∈ uploaded_part_nums rdl →
      Event.uploadAttempt n a ∉
        (multipart_upload_with_resume b k p (some rdl) nid live oracle c fs).trace) ∧
    (∃ t, first_attempts
        (multipart_upload_with_resume b k p (some rdl) nid live oracle c fs).trace ++ t =
      eligible (uploaded_part_nums rdl) (parts_index_list fs)) ∧
    ((eligible (uploaded_part_nums rdl) (parts_index_list fs)).all (succ3 oracle) = true →
      first_attempts
        (multipart_upload_with_resume b k p (some rdl) nid live oracle c fs).trace =
      eligible (uploaded_part_nums rdl) (parts_index_list fs)) := by
  have hfa := multipart_resume_first_attempts b k p nid rdl live oracle c fs hfound
  refine ⟨?_, ?_, ?_, ?_⟩
  · rw [hfa]
    exact List.Pairwise.sublist (att_expected_sublist oracle _) (pairwise_eligible _ _)
  · intro n a hn hmem
    obtain ⟨tail, htr, hta, htail⟩ :=
      multipart_resume_trace_shape b k p nid rdl live oracle c fs hfound
    obtain ⟨R, _, _, _, _, m5, m6⟩ := run_loop_spec oracle fs rdl
    rw [htr] at hmem
    rcases List.mem_append.mp hmem with h | h
    · rcases List.mem_cons.mp h with h2 | h2
      · cases h2
      · exact (m6 n a h2) hn
    · rcases htail _ h with h2 | h2 <;> cases h2
  · rw [hfa]
    exact att_expected_extend oracle _
  · intro hall
    rw [hfa]
    exact att_expected_of_all oracle _ hall

theorem C2_resume_skips_recorded_witness :
    ((ResumeData.mk "u" [⟨1, "e1", 52428800⟩, ⟨2, "e2", 52428800⟩]).upload_id ∈
      ["u"]) ∧
    (List.Pairwise (· < ·) (first_attempts
      (multipart_upload_with_resume "b" "k" "f.bin"
        (some ⟨"u", [⟨1, "e1", 52428800⟩, ⟨2, "e2", 52428800⟩]⟩) "n" ["u"]
        (fun _ _ => Except.ok "e") true 209715200).trace) ∧
    (∀ n a, n ∈ uploaded_part_nums ⟨"u", [⟨1, "e1", 52428800⟩, ⟨2, "e2", 52428800⟩]⟩ →
      Event.uploadAttempt n a ∉
        (multipart_upload_with_resume "b" "k" "f.bin"
          (some ⟨"u", [⟨1, "e1", 52428800⟩, ⟨2, "e2", 52428800⟩]⟩) "n" ["u"]
          (fun _ _ => Except.ok "e") true 209715200).trace) ∧
    (∃ t, first_attempts
        (multipart_upload_with_resume "b" "k" "f.bin"
          (some ⟨"u", [⟨1, "e1", 52428800⟩, ⟨2, "e2", 52428800⟩]⟩) "n" ["u"]
          (fun _ _ => Except.ok "e") true 209715200).trace ++ t =
      eligible (uploaded_part_nums ⟨"u", [⟨1, "e1", 52428800⟩, ⟨2, "e2", 52428800⟩]⟩)
        (parts_index_list 209715200)) ∧
    ((eligible (uploaded_part_nums ⟨"u", [⟨1, "e1", 52428800⟩, ⟨2, "e2", 52428800⟩]⟩)
        (parts_index_list 209715200)).all (succ3 (fun _ _ => Except.ok "e")) = true →
      first_attempts
        (multipart_upload_with_resume "b" "k" "f.bin"
          (some ⟨"u", [⟨1, "e1", 52428800⟩, ⟨2, "e2", 52428800⟩]⟩) "n" ["u"]
          (fun _ _ => Except.ok "e") true 209715200).trace =
      eligible (uploaded_part_nums ⟨"u", [⟨1, "e1", 52428800⟩, ⟨2, "e2", 52428800⟩]⟩)
        (parts_index_list 209715200))) ∧
    first_attempts
      (multipart_upload_with_resume "b" "k" "f.bin"
        (some ⟨"u", [⟨1, "e1", 52428800⟩, ⟨2, "e2", 52428800⟩]⟩) "n" ["u"]
        (fun _ _ => Except.ok "e") true 209715200).trace = [3, 4] :=
  ⟨by decide,
   C2_resume_skips_recorded "b" "k" "f.bin" "n"
     ⟨"u", [⟨1, "e1", 52428800⟩, ⟨2, "e2", 52428800⟩]⟩ ["u"]
     (fun _ _ => Except.ok "e") true 209715200 (by decide),
   by decide⟩

/-- Scan of a trace checking the durability ordering: at every upload attempt of
a part `m`, every part `n < m` whose upload was started earlier must already
occur in some earlier resume-record write. -/
def persist_ordered : List Nat → List Nat → List Event → Bool
  | _, _, [] => true
  | attempted, persisted, Event.uploadAttempt m _ :: rest =>
      attempted.all (fun n => !(decide (n < m)) || decide (n ∈ persisted)) &&
      persist_ordered (m :: attempted) persisted rest
  | attempted, persisted, Event.persist d :: rest =>
      persist_ordered attempted (persisted ++ uploaded_part_nums d) rest
  | attempted, persisted, _ :: rest => persist_ordered attempted persisted rest

theorem po_nil (att per : List Nat) : persist_ordered att per [] = true := rfl

theorem po_attempt (att per : List Nat) (m a : Nat) (t : List Event) :
    persist_ordered att per (Event.uploadAttempt m a :: t) =
      (att.all (fun n => !(decide (n < m)) || decide (n ∈ per)) &&
        persist_ordered (m :: att) per t) := rfl

theorem po_persist (att per : List Nat) (d : ResumeData) (t : List Event) :
    persist_ordered att per (Event.persist d :: t) =
      persist_ordered att (per ++ uploaded_part_nums d) t := rfl

theorem po_print (att per : List Nat) (s : String) (t : List Event) :
    persist_ordered att per (Event.printMsg s :: t) = persist_ordered att per t := rfl

theorem po_sleep (att per : List Nat) (d : Nat) (t : List Event) :
    persist_ordered att per (Event.sleep d :: t) = persist_ordered att per t := rfl

theorem po_cancel (att per : List Nat) (t : List Event) :
    persist_ordered att per (Event.cancel :: t) = persist_ordered att per t := rfl

theorem po_check2 (att per : List Nat) (m : Nat)
    (h : ∀ n ∈ att, n < m → n ∈ per) :
    att.all (fun n => !(decide (n < m)) || decide (n ∈ per)) = true := by
  rw [List.all_eq_true]
  intro n hn
  by_cases hlt : n < m
  · rw [decide_eq_true (h n hn hlt), Bool.or_true]
  · rw [decide_eq_false hlt]
    rfl

theorem po_attempt_block (oracle : Nat → Nat → Except String String) (pn : Nat)
    (attempted persisted : List Nat) (rest : List Event)
    (hinv : ∀ n ∈ attempted, n ∈ persisted) :
    ∃ att2, (∀ n ∈ att2, n = pn ∨ n ∈ attempted) ∧
      persist_ordered attempted persisted ((attempt_events oracle pn).1 ++ rest) =
        persist_ordered att2 persisted rest := by
  have hc1 : ∀ n ∈ attempted, n < pn → n ∈ persisted := fun n hn _ => hinv n hn
  have hc2 : ∀ n ∈ pn :: attempted, n < pn → n ∈ persisted := by
    intro n hn hlt
    rcases List.mem_cons.mp hn with rfl | h
    · exact absurd hlt (Nat.lt_irrefl n)
    · exact hinv n h
  have hc3 : ∀ n ∈ pn :: pn :: attempted, n < pn → n ∈ persisted := by
    intro n hn hlt
    rcases List.mem_cons.mp hn with rfl | h
    · exact absurd hlt (Nat.lt_irrefl n)
    · exact hc2 n h hlt
  cases h0 : oracle pn 0 with
  | ok e0 =>
    have hA : (attempt_events oracle pn).1 = [Event.uploadAttempt pn 0] := by
      simp [attempt_events, h0]
    refine ⟨pn :: attempted, ?_, ?_⟩
    · intro n hn
      rcases List.mem_cons.mp hn with rfl | h
      · exact Or.inl rfl
      · exact Or.inr h
    · rw [hA]
      simp only [List.cons_append, List.nil_append, po_attempt]
      rw [po_check2 attempted persisted pn hc1, Bool.true_and]
  | error m0 =>
    cases h1 : oracle pn 1 with
    | ok e1 =>
      have hA : (attempt_events oracle pn).1 =
          [Event.uploadAttempt pn 0, Event.printMsg (retry_msg pn 0 m0),
           Event.sleep 1, Event.uploadAttempt pn 1] := by
        simp [attempt_events, h0, h1]
      refine ⟨pn :: pn :: attempted, ?_, ?_⟩
      · intro n hn
        rcases List.mem_cons.mp hn with rfl | h
        · exact Or.inl rfl
        · rcases List.mem_cons.mp h with rfl | h2
          · exact Or.inl rfl
          · exact Or.inr h2
      · rw [hA]
        simp only [List.cons_append, List.nil_append, po_attempt, po_print, po_sleep]
        rw [po_check2 attempted persisted pn hc1,
          po_check2 (pn :: attempted) persisted pn hc2, Bool.true_and, Bool.true_and]
    | error m1 =>
      have hmem3 : ∀ n ∈ pn :: pn :: pn :: attempted, n = pn ∨ n ∈ attempted := by
        intro n hn
        rcases List.mem_cons.mp hn with rfl | h
        · exact Or.inl rfl
        · rcases List.mem_cons.mp h with rfl | h2
          · exact Or.inl rfl
          · rcases List.mem_cons.mp h2 with rfl | h3
            · exact Or.inl rfl
            · exact Or.inr h3
      cases h2 : oracle pn 2 with
      | ok e2 =>
        have hA : (attempt_events oracle pn).1 =
            [Event.uploadAttempt pn 0, Event.printMsg (retry_msg pn 0 m0),
             Event.sleep 1, Event.uploadAttempt pn 1,
             Event.printMsg (retry_msg pn 1 m1), Event.sleep 2,
             Event.uploadAttempt pn 2] := by
          simp [attempt_events, h0, h1, h2]
        refine ⟨pn :: pn :: pn :: attempted, hmem3, ?_⟩
        rw [hA]
        simp only [List.cons_append, List.nil_append, po_attempt, po_print, po_sleep]
        rw [po_check2 attempted persisted pn hc1,
          po_check2 (pn :: attempted) persisted pn hc2,
          po_check2 (pn :: pn :: attempted) persisted pn hc3,
          Bool.true_and, Bool.true_and, Bool.true_and]
      | error m2 =>
        have hA : (attempt_events oracle pn).1 =
            [Event.uploadAttempt pn 0, Event.printMsg (retry_msg pn 0 m0),
             Event.sleep 1, Event.uploadAttempt pn 1,
             Event.printMsg (retry_msg pn 1 m1), Event.sleep 2,
             Event.uploadAttempt pn 2, Event.printMsg (retry_msg pn 2 m2),
             Event.sleep 4] := by
          simp [attempt_events, h0, h1, h2]
        refine ⟨pn :: pn :: pn :: attempted, hmem3, ?_⟩
        rw [hA]
        simp only [List.cons_append, List.nil_append, po_attempt, po_print, po_sleep]
        rw [po_check2 attempted persisted pn hc1,
          po_check2 (pn :: attempted) persisted pn hc2,
          po_check2 (pn :: pn :: attempted) persisted pn hc3,
          Bool.true_and, Bool.true_and, Bool.true_and]

theorem po_loop (oracle : Nat → Nat → Except String String) (fs : Nat) (u : List Nat) :
    ∀ il rd mem attempted persisted,
    (∀ n ∈ attempted, n ∈ persisted) →
    (((upload_loop oracle fs u il rd mem).ok = true →
      ∀ rest, ∃ att2 per2, (∀ n ∈ att2, n ∈ per2) ∧
        persist_ordered attempted persisted
          ((upload_loop oracle fs u il rd mem).trace ++ rest) =
          persist_ordered att2 per2 rest) ∧
     ((upload_loop oracle fs u il rd mem).ok = false →
      persist_ordered attempted persisted (upload_loop oracle fs u il rd mem).trace =
        true)) := by
  intro il
  induction il with
  | nil =>
    intro rd mem attempted persisted hinv
    constructor
    · intro _ rest
      exact ⟨attempted, persisted, hinv, rfl⟩
    · intro h
      simp [upload_loop] at h
  | cons pn rest_il ih =>
    intro rd mem attempted persisted hinv
    by_cases hu : pn ∈ u
    · simp only [upload_loop, if_pos hu]
      exact ih rd mem attempted persisted hinv
    · cases ha : (attempt_events oracle pn).2 with
      | some etag =>
        simp only [upload_loop, if_neg hu, ha]
        constructor
        · intro hok rest
          obtain ⟨att2, hatt2, heq⟩ := po_attempt_block oracle pn attempted persisted
            (Event.persist ⟨rd.upload_id, rd.parts ++
              [⟨pn, etag, min part_size (fs - (pn - 1) * part_size)⟩]⟩ ::
              ((upload_loop oracle fs u rest_il
                ⟨rd.upload_id, rd.parts ++
                  [⟨pn, etag, min part_size (fs - (pn - 1) * part_size)⟩]⟩
                (mem ++ [⟨pn, etag, min part_size (fs - (pn - 1) * part_size)⟩])).trace ++
                rest)) hinv
          have hinv2 : ∀ n ∈ att2, n ∈ persisted ++ uploaded_part_nums
              ⟨rd.upload_id, rd.parts ++
                [⟨pn, etag, min part_size (fs - (pn - 1) * part_size)⟩]⟩ := by
            intro n hn
            rcases hatt2 n hn with rfl | h
            · refine List.mem_append_right _ ?_
              unfold uploaded_part_nums
              simp
            · exact List.mem_append_left _ (hinv n h)
          obtain ⟨att3, per3, hinv3, heq3⟩ :=
            (ih ⟨rd.upload_id, rd.parts ++
                [⟨pn, etag, min part_size (fs - (pn - 1) * part_size)⟩]⟩
              (mem ++ [⟨pn, etag, min part_size (fs - (pn - 1) * part_size)⟩])
              att2 _ hinv2).1 hok rest
          refine ⟨att3, per3, hinv3, ?_⟩
          rw [List.append_assoc, List.cons_append, heq, po_persist, heq3]
        · intro hok
          obtain ⟨att2, hatt2, heq⟩ := po_attempt_block oracle pn attempted persisted
            (Event.persist ⟨rd.upload_id, rd.parts ++
              [⟨pn, etag, min part_size (fs - (pn - 1) * part_size)⟩]⟩ ::
              (upload_loop oracle fs u rest_il
                ⟨rd.upload_id, rd.parts ++
                  [⟨pn, etag, min part_size (fs - (pn - 1) * part_size)⟩]⟩
                (mem ++ [⟨pn, etag, min part_size (fs - (pn - 1) * part_size)⟩])).trace)
            hinv
          have hinv2 : ∀ n ∈ att2, n ∈ persisted ++ uploaded_part_nums
              ⟨rd.upload_id, rd.parts ++
                [⟨pn, etag, min part_size (fs - (pn - 1) * part_size)⟩]⟩ := by
            intro n hn
            rcases hatt2 n hn with rfl | h
            · refine List.mem_append_right _ ?_
              unfold uploaded_part_nums
              simp
            · exact List.mem_append_left _ (hinv n h)
          have h2 := (ih ⟨rd.upload_id, rd.parts ++
                [⟨pn, etag, min part_size (fs - (pn - 1) * part_size)⟩]⟩
              (mem ++ [⟨pn, etag, min part_size (fs - (pn - 1) * part_size)⟩])
              att2 _ hinv2).2 hok
          rw [heq, po_persist, h2]
      | none =>
        simp only [upload_loop, if_neg hu, ha]
        constructor
        · intro h
          cases h
        · intro _
          obtain ⟨att2, _, heq⟩ := po_attempt_block oracle pn attempted persisted
            [Event.printMsg (part_failed_msg pn), Event.cancel] hinv
          rw [heq, po_print, po_cancel, po_nil]

theorem po_tail_true (att per : List Nat) (tail : List Event)
    (htail : ∀ e ∈ tail, e = Event.complete ∨ e = Event.removeRecord) :
    persist_ordered att per tail = true := by
  induction tail with
  | nil => rfl
  | cons e t ih =>
    rcases htail e (List.mem_cons_self e t) with rfl | rfl <;>
      exact ih (fun x hx => htail x (List.mem_cons_of_mem _ hx))

theorem po_listSessions (att per : List Nat) (t : List Event) :
    persist_ordered att per (Event.listSessions :: t) = persist_ordered att per t := rfl

theorem po_initiate (att per : List Nat) (t : List Event) :
    persist_ordered att per (Event.initiate :: t) = persist_ordered att per t := rfl

theorem po_run_loop (oracle : Nat → Nat → Except String String) (fs : Nat)
    (rd : ResumeData) :
    ((run_loop oracle fs rd).ok = true → ∀ rest, ∃ att2 per2,
      (∀ n ∈ att2, n ∈ per2) ∧
      persist_ordered [] [] ((run_loop oracle fs rd).trace ++ rest) =
        persist_ordered att2 per2 rest) ∧
    ((run_loop oracle fs rd).ok = false →
      persist_ordered [] [] (run_loop oracle fs rd).trace = true) :=
  po_loop oracle fs (uploaded_part_nums rd) (parts_index_list fs) rd rd.parts [] []
    (fun n hn => absurd hn (List.not_mem_nil n))

theorem multipart_trace_ok_ctrue (b k p : String) (disk0 : Option ResumeData)
    (nid : String) (live : List String) (oracle : Nat → Nat → Except String String)
    (fs : Nat) (hfound : (loaded_rd disk0 nid).upload_id ∈ live)
    (hok : (run_loop oracle fs (loaded_rd disk0 nid)).ok = true) :
    (multipart_upload_with_resume b k p disk0 nid live oracle true fs).trace =
      (branch_events disk0 nid ++ Event.listSessions ::
        (run_loop oracle fs (loaded_rd disk0 nid)).trace) ++
        [Event.complete, Event.removeRecord] := by
  rw [multipart_found_ok_ctrue b k p disk0 nid live oracle fs hfound hok]

theorem multipart_trace_ok_cfalse (b k p : String) (disk0 : Option ResumeData)
    (nid : String) (live : List String) (oracle : Nat → Nat → Except String String)
    (fs : Nat) (hfound : (loaded_rd disk0 nid).upload_id ∈ live)
    (hok : (run_loop oracle fs (loaded_rd disk0 nid)).ok = true) :
    (multipart_upload_with_resume b k p disk0 nid live oracle false fs).trace =
      (branch_events disk0 nid ++ Event.listSessions ::
        (run_loop oracle fs (loaded_rd disk0 nid)).trace) ++ [Event.complete] := by
  rw [multipart_found_ok_cfalse b k p disk0 nid live oracle fs hfound hok]

theorem multipart_trace_abort (b k p : String) (disk0 : Option ResumeData)
    (nid : String) (live : List String) (oracle : Nat → Nat → Except String String)
    (c : Bool) (fs : Nat) (hfound : (loaded_rd disk0 nid).upload_id ∈ live)
    (hok : (run_loop oracle fs (loaded_rd disk0 nid)).ok = false) :
    (multipart_upload_with_resume b k p disk0 nid live oracle c fs).trace =
      branch_events disk0 nid ++ Event.listSessions ::
        (run_loop oracle fs (loaded_rd disk0 nid)).trace := by
  rw [multipart_found_abort b k p disk0 nid live oracle c fs hfound hok]

theorem multipart_trace_notfound (b k p : String) (disk0 : Option ResumeData)
    (nid : String) (live : List String) (oracle : Nat → Nat → Except String String)
    (c : Bool) (fs : Nat) (hnf : (loaded_rd disk0 nid).upload_id ∉ live) :
    (multipart_upload_with_resume b k p disk0 nid live oracle c fs).trace =
      branch_events disk0 nid ++
        [Event.listSessions, Event.printMsg session_not_found_msg] := by
  rw [multipart_notfound b k p disk0 nid live oracle c fs hnf]

theorem po_strip_branch_some (rdl : ResumeData) (nid : String) (T : List Event) :
    persist_ordered [] [] (branch_events (some rdl) nid ++ Event.listSessions :: T) =
      persist_ordered [] [] T := rfl

theorem po_strip_branch_none (nid : String) (T : List Event) :
    persist_ordered [] [] (branch_events none nid ++ Event.listSessions :: T) =
      persist_ordered [] [] T := rfl

/-- C3: in every run of `multipart_upload_with_resume`, whenever the upload of a
part `m` starts, every lower-numbered part whose upload was started earlier in
the run already appears in an earlier write of the resume record: the
PartRecord of an acknowledged part is appended and the record written to disk
before the upload of any later part begins (the `persist_ordered` trace scan). -/
theorem C3_persist_before_next_part (b k p : String) (disk0 : Option ResumeData)
    (nid : String) (live : List String) (oracle : Nat → Nat → Except String String)
    (c : Bool) (fs : Nat) :
    persist_ordered [] []
      (multipart_upload_with_resume b k p disk0 nid live oracle c fs).trace = true := by
  by_cases hf : (loaded_rd disk0 nid).upload_id ∈ live
  · cases hok : (run_loop oracle fs (loaded_rd disk0 nid)).ok with
    | true =>
      cases c with
      | true =>
        rw [multipart_trace_ok_ctrue b k p disk0 nid live oracle fs hf hok,
          List.append_assoc, List.cons_append]
        obtain ⟨att2, per2, hinv2, heq⟩ :=
          (po_run_loop oracle fs (loaded_rd disk0 nid)).1 hok
            [Event.complete, Event.removeRecord]
        cases disk0 with
        | some rdl =>
          rw [po_strip_branch_some, heq]
          exact po_tail_true att2 per2 _ (by decide)
        | none =>
          rw [po_strip_branch_none, heq]
          exact po_tail_true att2 per2 _ (by decide)
      | false =>
        rw [multipart_trace_ok_cfalse b k p disk0 nid live oracle fs hf hok,
          List.append_assoc, List.cons_append]
        obtain ⟨att2, per2, hinv2, heq⟩ :=
          (po_run_loop oracle fs (loaded_rd disk0 nid)).1 hok [Event.complete]
        cases disk0 with
        | some rdl =>
          rw [po_strip_branch_some, heq]
          exact po_tail_true att2 per2 _ (by decide)
        | none =>
          rw [po_strip_branch_none, heq]
          exact po_tail_true att2 per2 _ (by decide)
    | false =>
      rw [multipart_trace_abort b k p disk0 nid live oracle c fs hf hok]
      cases disk0 with
      | some rdl =>
        rw [po_strip_branch_some]
        exact (po_run_loop oracle fs (loaded_rd (some rdl) nid)).2 hok
      | none =>
        rw [po_strip_branch_none]
        exact (po_run_loop oracle fs (loaded_rd none nid)).2 hok
  · rw [multipart_trace_notfound b k p disk0 nid live oracle c fs hf]
    cases disk0 <;> rfl

theorem multipart_fresh_starts_initiate (b k p nid : String) (live : List String)
    (oracle : Nat → Nat → Except String String) (c : Bool) (fs : Nat) :
    (multipart_upload_with_resume b k p none nid live oracle c fs).trace.head? =
      some Event.initiate := by
  by_cases hf : (loaded_rd none nid).upload_id ∈ live
  · cases hok : (run_loop oracle fs (loaded_rd none nid)).ok with
    | true =>
      cases c with
      | true =>
        rw [multipart_trace_ok_ctrue b k p none nid live oracle fs hf hok]
        rfl
      | false =>
        rw [multipart_trace_ok_cfalse b k p none nid live oracle fs hf hok]
        rfl
    | false =>
      rw [multipart_trace_abort b k p none nid live oracle c fs hf hok]
      rfl
  · rw [multipart_trace_notfound b k p none nid live oracle c fs hf]
    rfl

/-- C4: when the session is found and every pending part succeeds within its
retries (so each part index `1..part_count` has a PartRecord from this run or a
prior one) and remote completion succeeds, the run deletes the local resume
record (disk becomes `none`) and returns the address `ks3://<bucket>/<key>`;
and any invocation that finds no resume record on disk takes the fresh-session
branch, its first effect being `initiate`. -/
theorem C4_completion_deletes_record (b k p nid : String) (disk0 : Option ResumeData)
    (live : List String) (oracle : Nat → Nat → Except String String) (fs : Nat)
    (hfound : (loaded_rd disk0 nid).upload_id ∈ live)
    (hall : (eligible (uploaded_part_nums (loaded_rd disk0 nid))
      (parts_index_list fs)).all (succ3 oracle) = true) :
    (multipart_upload_with_resume b k p disk0 nid live oracle true fs).disk = none ∧
    (multipart_upload_with_resume b k p disk0 nid live oracle true fs).result =
      .ret (some ("ks3://" ++ b ++ "/" ++ k)) ∧
    (∀ nid2 live2 oracle2 c2,
      (multipart_upload_with_resume b k p none nid2 live2 oracle2 c2 fs).trace.head? =
        some Event.initiate) := by
  have hok : (run_loop oracle fs (loaded_rd disk0 nid)).ok = true := by
    obtain ⟨R, _, _, _, h4, _, _⟩ := run_loop_spec oracle fs (loaded_rd disk0 nid)
    rw [h4]
    exact hall
  refine ⟨?_, ?_, ?_⟩
  · rw [multipart_found_ok_ctrue b k p disk0 nid live oracle fs hfound hok]
  · rw [multipart_found_ok_ctrue b k p disk0 nid live oracle fs hfound hok]
  · intro nid2 live2 oracle2 c2
    exact multipart_fresh_starts_initiate b k p nid2 live2 oracle2 c2 fs

theorem C4_completion_deletes_record_witness :
    ((loaded_rd none "u").upload_id ∈ ["u"]) ∧
    ((eligible (uploaded_part_nums (loaded_rd none "u"))
      (parts_index_list 104857601)).all (succ3 (fun _ _ => Except.ok "e")) = true) ∧
    ((multipart_upload_with_resume "b" "k" "f.bin" none "u" ["u"]
        (fun _ _ => Except.ok "e") true 104857601).disk = none ∧
    (multipart_upload_with_resume "b" "k" "f.bin" none "u" ["u"]
        (fun _ _ => Except.ok "e") true 104857601).result =
      .ret (some ("ks3://" ++ "b" ++ "/" ++ "k")) ∧
    (∀ nid2 live2 oracle2 c2,
      (multipart_upload_with_resume "b" "k" "f.bin" none nid2 live2 oracle2 c2
        104857601).trace.head? = some Event.initiate)) :=
  ⟨by decide, by decide,
   C4_completion_deletes_record "b" "k" "f.bin" "u" none ["u"]
     (fun _ _ => Except.ok "e") 104857601 (by decide) (by decide)⟩

theorem takeWhile_middle_false {α : Type} {p : α → Bool} :
    ∀ (l₁ : List α) (a : α) (l₂ : List α), (∀ x ∈ l₁, p x = true) →
    p a = false → (l₁ ++ a :: l₂).takeWhile p = l₁ := by
  intro l₁
  induction l₁ with
  | nil =>
    intro a l₂ _ ha
    simp [List.takeWhile_cons, ha]
  | cons x xs ih =>
    intro a l₂ h ha
    rw [List.cons_append, List.takeWhile_cons, h x (List.mem_cons_self x xs)]
    rw [ih a l₂ (fun y hy => h y (List.mem_cons_of_mem _ hy)) ha]
    rfl

theorem all_middle_false {p : Nat → Bool} (l₁ : List Nat) (a : Nat) (l₂ : List Nat)
    (ha : p a = false) : (l₁ ++ a :: l₂).all p = false := by
  rw [List.all_append, List.all_cons, ha]
  simp

theorem mem_eligible_not_uploaded (u il : List Nat) (n : Nat)
    (h : n ∈ eligible u il) : n ∉ u := by
  unfold eligible at h
  have := List.mem_filter.mp h
  simpa using this.2

theorem run_loop_cancel (oracle : Nat → Nat → Except String String) (fs : Nat)
    (rd : ResumeData) (h : (run_loop oracle fs rd).ok = false) :
    Event.cancel ∈ (run_loop oracle fs rd).trace :=
  upload_loop_cancel oracle fs (uploaded_part_nums rd) (parts_index_list fs)
    rd rd.parts h

/-- C5: when the session is found and some pending part `m` fails all three
attempts (all pending parts before it succeeding), the run aborts the remote
session (`cancel` appears in the trace) and returns None; the resume record is
left on disk and contains exactly the previously recorded PartRecords followed
by the records of the parts that succeeded in this run before `m`, and no
record for the failing part `m` is created. -/
theorem C5_exhausted_part_aborts (b k p nid : String) (rdl : ResumeData)
    (live : List String) (oracle : Nat → Nat → Except String String) (c : Bool)
    (fs : Nat) (m : Nat) (el₁ el₂ : List Nat)
    (hfound : rdl.upload_id ∈ live)
    (hsplit : eligible (uploaded_part_nums rdl) (parts_index_list fs) =
      el₁ ++ m :: el₂)
    (h1 : ∀ j ∈ el₁, succ3 oracle j = true)
    (hm : succ3 oracle m = false) :
    (multipart_upload_with_resume b k p (some rdl) nid live oracle c fs).result =
      .ret none ∧
    Event.cancel ∈ (multipart_upload_with_resume b k p (some rdl) nid live oracle c fs).trace ∧
    (∃ newRecs, (multipart_upload_with_resume b k p (some rdl) nid live oracle c fs).disk =
        some ⟨rdl.upload_id, rdl.parts ++ newRecs⟩ ∧
      newRecs.map (fun r => r.part_num) = el₁) ∧
    m ∉ uploaded_part_nums rdl ∧
    (∀ rd2, (multipart_upload_with_resume b k p (some rdl) nid live oracle c fs).disk =
        some rd2 → m ∉ uploaded_part_nums rd2) := by
  obtain ⟨R, hrd, hmem, hmap, hok0, hfa, hnu⟩ := run_loop_spec oracle fs rdl
  have hok : (run_loop oracle fs rdl).ok = false := by
    rw [hok0, hsplit]
    exact all_middle_false el₁ m el₂ hm
  have heqrun := multipart_found_abort b k p (some rdl) nid live oracle c fs hfound hok
  have hmnotu : m ∉ uploaded_part_nums rdl :=
    mem_eligible_not_uploaded (uploaded_part_nums rdl) (parts_index_list fs) m
      (by rw [hsplit]; exact List.mem_append_right _ (List.mem_cons_self m el₂))
  have hRel : R.map (fun r => r.part_num) = el₁ := by
    rw [hmap, hsplit, takeWhile_middle_false el₁ m el₂ h1 hm]
  have hmel1 : m ∉ el₁ := by
    have hnd : (el₁ ++ m :: el₂).Nodup := by
      rw [← hsplit]
      exact nodup_eligible _ _
    have hdisj := (List.nodup_append.mp hnd).2.2
    intro hmem1
    exact hdisj hmem1 (List.mem_cons_self m el₂)
  refine ⟨?_, ?_, ⟨R, ?_, hRel⟩, hmnotu, ?_⟩
  · rw [heqrun]
  · rw [heqrun]
    show Event.cancel ∈ branch_events (some rdl) nid ++
      Event.listSessions :: (run_loop oracle fs (loaded_rd (some rdl) nid)).trace
    exact List.mem_append_right _
      (List.mem_cons_of_mem _ (run_loop_cancel oracle fs _ hok))
  · rw [heqrun]
    show some (run_loop oracle fs rdl).rd = some ⟨rdl.upload_id, rdl.parts ++ R⟩
    rw [hrd]
  · intro rd2 hdisk
    rw [heqrun] at hdisk
    have : (run_loop oracle fs rdl).rd = rd2 := Option.some.inj hdisk
    rw [← this, hrd]
    unfold uploaded_part_nums
    rw [List.map_append]
    intro hmm
    rcases List.mem_append.mp hmm with h | h
    · exact hmnotu h
    · rw [hRel] at h
      exact hmel1 h

theorem C5_exhausted_part_aborts_witness :
    ((multipart_upload_with_resume "b" "k" "f.bin" (some ⟨"u", []⟩) "n" ["u"]
        (fun _ _ => Except.error "boom") true 52428801).result = .ret none ∧
    Event.cancel ∈ (multipart_upload_with_resume "b" "k" "f.bin" (some ⟨"u", []⟩) "n"
        ["u"] (fun _ _ => Except.error "boom") true 52428801).trace ∧
    (∃ newRecs, (multipart_upload_with_resume "b" "k" "f.bin" (some ⟨"u", []⟩) "n"
          ["u"] (fun _ _ => Except.error "boom") true 52428801).disk =
        some ⟨(ResumeData.mk "u" []).upload_id, (ResumeData.mk "u" []).parts ++ newRecs⟩ ∧
      newRecs.map (fun r => r.part_num) = []) ∧
    1 ∉ uploaded_part_nums ⟨"u", []⟩ ∧
    (∀ rd2, (multipart_upload_with_resume "b" "k" "f.bin" (some ⟨"u", []⟩) "n" ["u"]
          (fun _ _ => Except.error "boom") true 52428801).disk = some rd2 →
      1 ∉ uploaded_part_nums rd2)) :=
  C5_exhausted_part_aborts "b" "k" "f.bin" "n" ⟨"u", []⟩ ["u"]
    (fun _ _ => Except.error "boom") true 52428801 1 [] [2]
    (by decide) (by decide) (by decide) (by decide)

theorem upload_loop_reaches (oracle : Nat → Nat → Except String String) (fs : Nat)
    (u : List Nat) : ∀ il rd mem m el₁ el₂,
    eligible u il = el₁ ++ m :: el₂ → (∀ j ∈ el₁, succ3 oracle j = true) →
    ∃ s t, (upload_loop oracle fs u il rd mem).trace =
      s ++ ((attempt_events oracle m).1 ++ t) := by
  intro il
  induction il with
  | nil =>
    intro rd mem m el₁ el₂ hsp _
    rw [show eligible u [] = [] from rfl] at hsp
    exact absurd (List.append_eq_nil.mp hsp.symm).2 (List.cons_ne_nil m el₂)
  | cons pn rest ih =>
    intro rd mem m el₁ el₂ hsp h1
    by_cases hu : pn ∈ u
    · have heq : eligible u (pn :: rest) = eligible u rest := by
        simp [eligible, List.filter_cons, hu]
      rw [heq] at hsp
      have hl : upload_loop oracle fs u (pn :: rest) rd mem =
          upload_loop oracle fs u rest rd mem := by
        simp [upload_loop, hu]
      rw [hl]
      exact ih rd mem m el₁ el₂ hsp h1
    · have heq : eligible u (pn :: rest) = pn :: eligible u rest := by
        simp [eligible, List.filter_cons, hu]
      rw [heq] at hsp
      cases el₁ with
      | nil =>
        rw [List.nil_append] at hsp
        injection hsp with hj hrest
        subst hj
        cases ha : (attempt_events oracle pn).2 with
        | some etag =>
          refine ⟨[], Event.persist ⟨rd.upload_id, rd.parts ++
            [⟨pn, etag, min part_size (fs - (pn - 1) * part_size)⟩]⟩ ::
            (upload_loop oracle fs u rest
              ⟨rd.upload_id, rd.parts ++
                [⟨pn, etag, min part_size (fs - (pn - 1) * part_size)⟩]⟩
              (mem ++ [⟨pn, etag, min part_size (fs - (pn - 1) * part_size)⟩])).trace,
            ?_⟩
          simp [upload_loop, hu, ha]
        | none =>
          refine ⟨[], [Event.printMsg (part_failed_msg pn), Event.cancel], ?_⟩
          simp [upload_loop, hu, ha]
      | cons j el₁' =>
        injection hsp with hj hrest
        subst hj
        have hs : succ3 oracle pn = true := h1 pn (List.mem_cons_self pn el₁')
        cases ha : (attempt_events oracle pn).2 with
        | some etag =>
          obtain ⟨s', t', hst⟩ := ih
            ⟨rd.upload_id, rd.parts ++
              [⟨pn, etag, min part_size (fs - (pn - 1) * part_size)⟩]⟩
            (mem ++ [⟨pn, etag, min part_size (fs - (pn - 1) * part_size)⟩])
            m el₁' el₂ hrest (fun j2 hj2 => h1 j2 (List.mem_cons_of_mem _ hj2))
          refine ⟨(attempt_events oracle pn).1 ++ (Event.persist
            ⟨rd.upload_id, rd.parts ++
              [⟨pn, etag, min part_size (fs - (pn - 1) * part_size)⟩]⟩ :: s'), t', ?_⟩
          simp only [upload_loop, if_neg hu, ha]
          rw [hst]
          simp [List.append_assoc]
        | none =>
          exfalso
          have hne := attempt_events_isSome oracle pn
          rw [ha, hs] at hne
          cases hne

theorem takeWhile_middle_true {α : Type} {p : α → Bool} :
    ∀ (l₁ : List α) (a : α) (l₂ : List α), (∀ x ∈ l₁, p x = true) →
    p a = true → (l₁ ++ a :: l₂).takeWhile p = l₁ ++ a :: l₂.takeWhile p := by
  intro l₁
  induction l₁ with
  | nil =>
    intro a l₂ _ ha
    simp [List.takeWhile_cons, ha]
  | cons x xs ih =>
    intro a l₂ h ha
    rw [List.cons_append, List.takeWhile_cons, h x (List.mem_cons_self x xs)]
    rw [ih a l₂ (fun y hy => h y (List.mem_cons_of_mem _ hy)) ha]
    rfl


theorem runout_resumeData (t : List Event) (rp : String) (d : Option ResumeData)
    (rd : ResumeData) (mem : List PartRecord) (r : PyResult (Option String)) :
    (RunOut.mk t rp d rd mem r).resumeData = rd := rfl

theorem runout_memParts (t : List Event) (rp : String) (d : Option ResumeData)
    (rd : ResumeData) (mem : List PartRecord) (r : PyResult (Option String)) :
    (RunOut.mk t rp d rd mem r).memParts = mem := rfl

theorem multipart_resume_mem_fields (b k p nid : String) (rdl : ResumeData)
    (live : List String) (oracle : Nat → Nat → Except String String) (c : Bool)
    (fs : Nat) (hfound : rdl.upload_id ∈ live) :
    (multipart_upload_with_resume b k p (some rdl) nid live oracle c fs).resumeData =
      (run_loop oracle fs rdl).rd ∧
    (multipart_upload_with_resume b k p (some rdl) nid live oracle c fs).memParts =
      (run_loop oracle fs rdl).mem := by
  cases hok : (run_loop oracle fs rdl).ok with
  | true =>
    cases c with
    | true =>
      have h := multipart_found_ok_ctrue b k p (some rdl) nid live oracle fs hfound hok
      exact ⟨(congrArg RunOut.resumeData h).trans (runout_resumeData _ _ _ _ _ _),
             (congrArg RunOut.memParts h).trans (runout_memParts _ _ _ _ _ _)⟩
    | false =>
      have h := multipart_found_ok_cfalse b k p (some rdl) nid live oracle fs hfound hok
      exact ⟨(congrArg RunOut.resumeData h).trans (runout_resumeData _ _ _ _ _ _),
             (congrArg RunOut.memParts h).trans (runout_memParts _ _ _ _ _ _)⟩
  | false =>
    have h := multipart_found_abort b k p (some rdl) nid live oracle c fs hfound hok
    exact ⟨(congrArg RunOut.resumeData h).trans (runout_resumeData _ _ _ _ _ _),
           (congrArg RunOut.memParts h).trans (runout_memParts _ _ _ _ _ _)⟩

theorem run_loop_reaches (oracle : Nat → Nat → Except String String) (fs : Nat)
    (rd : ResumeData) (m : Nat) (el₁ el₂ : List Nat)
    (hsplit : eligible (uploaded_part_nums rd) (parts_index_list fs) =
      el₁ ++ m :: el₂)
    (h1 : ∀ j ∈ el₁, succ3 oracle j = true) :
    ∃ s t, (run_loop oracle fs rd).trace =
      s ++ ((attempt_events oracle m).1 ++ t) :=
  upload_loop_reaches oracle fs (uploaded_part_nums rd) (parts_index_list fs)
    rd rd.parts m el₁ el₂ hsplit h1

theorem sublist_trace_of_reach (b k p nid : String) (rdl : ResumeData)
    (live : List String) (oracle : Nat → Nat → Except String String) (c : Bool)
    (fs : Nat) (hfound : rdl.upload_id ∈ live) (L : List Event)
    (hL : List.Sublist L (run_loop oracle fs rdl).trace) :
    List.Sublist L
      (multipart_upload_with_resume b k p (some rdl) nid live oracle c fs).trace := by
  obtain ⟨tail, htr, _, _⟩ :=
    multipart_resume_trace_shape b k p nid rdl live oracle c fs hfound
  rw [htr]
  exact (List.Sublist.cons Event.listSessions hL).trans
    (List.sublist_append_left _ tail)

/-- C6: when part `m` is reached (the pending parts before it all succeed) and
its upload fails twice then succeeds on the third attempt, the run sleeps
backoff delays of `2^0 = 1` and `2^1 = 2` time-units before attempts 2 and 3 of
`m` (in trace order), and exactly one PartRecord for `m` ends up in the final
in-memory `resume_data` (the content of the last resume-record write) and in
the in-memory `parts` list. -/
theorem C6_retry_backoff_single_record (b k p nid : String) (rdl : ResumeData)
    (live : List String) (oracle : Nat → Nat → Except String String) (c : Bool)
    (fs m : Nat) (el₁ el₂ : List Nat) (e₀ e₁ e₂ : String)
    (hfound : rdl.upload_id ∈ live)
    (hsplit : eligible (uploaded_part_nums rdl) (parts_index_list fs) =
      el₁ ++ m :: el₂)
    (hel : ∀ j ∈ el₁, succ3 oracle j = true)
    (h0 : oracle m 0 = Except.error e₀) (h1 : oracle m 1 = Except.error e₁)
    (h2 : oracle m 2 = Except.ok e₂) :
    List.Sublist [Event.uploadAttempt m 0, Event.sleep 1, Event.uploadAttempt m 1,
        Event.sleep 2, Event.uploadAttempt m 2]
      (multipart_upload_with_resume b k p (some rdl) nid live oracle c fs).trace ∧
    (uploaded_part_nums
      (multipart_upload_with_resume b k p (some rdl) nid live oracle c fs).resumeData).count m = 1 ∧
    ((multipart_upload_with_resume b k p (some rdl) nid live oracle c fs).memParts.map
      (fun r => r.part_num)).count m = 1 := by
  obtain ⟨hrdata, hmemp⟩ :=
    multipart_resume_mem_fields b k p nid rdl live oracle c fs hfound
  obtain ⟨R, hrd, hmem, hmap, hok0, hfa, hnu⟩ := run_loop_spec oracle fs rdl
  have hsm : succ3 oracle m = true := by
    unfold succ3
    rw [h0, h1, h2]
    rfl
  have htw : R.map (fun r => r.part_num) =
      el₁ ++ m :: el₂.takeWhile (succ3 oracle) := by
    rw [hmap, hsplit, takeWhile_middle_true el₁ m el₂ hel hsm]
  have hmnotu : m ∉ uploaded_part_nums rdl :=
    mem_eligible_not_uploaded (uploaded_part_nums rdl) (parts_index_list fs) m
      (by rw [hsplit]; exact List.mem_append_right _ (List.mem_cons_self m el₂))
  have hnd : (el₁ ++ m :: el₂).Nodup := by
    rw [← hsplit]
    exact nodup_eligible _ _
  have hmel1 : m ∉ el₁ := by
    have hdisj := (List.nodup_append.mp hnd).2.2
    intro hmem1
    exact hdisj hmem1 (List.mem_cons_self m el₂)
  have hmel2 : m ∉ el₂ := (List.nodup_cons.mp (List.Nodup.of_append_right hnd)).1
  have hmtw : m ∉ el₂.takeWhile (succ3 oracle) :=
    fun hmm => hmel2 ((List.takeWhile_sublist _).subset hmm)
  have hcount : ((rdl.parts ++ R).map (fun r => r.part_num)).count m = 1 := by
    rw [List.map_append, List.count_append, htw, List.count_append,
      List.count_cons_self]
    have hz1 : (rdl.parts.map (fun r => r.part_num)).count m = 0 :=
      List.count_eq_zero.mpr hmnotu
    have hz2 : el₁.count m = 0 := List.count_eq_zero.mpr hmel1
    have hz3 : (el₂.takeWhile (succ3 oracle)).count m = 0 :=
      List.count_eq_zero.mpr hmtw
    omega
  refine ⟨?_, ?_, ?_⟩
  · have hAm : (attempt_events oracle m).1 =
        [Event.uploadAttempt m 0, Event.printMsg (retry_msg m 0 e₀), Event.sleep 1,
         Event.uploadAttempt m 1, Event.printMsg (retry_msg m 1 e₁), Event.sleep 2,
         Event.uploadAttempt m 2] := by
      simp [attempt_events, h0, h1, h2]
    have hsub : List.Sublist [Event.uploadAttempt m 0, Event.sleep 1,
        Event.uploadAttempt m 1, Event.sleep 2, Event.uploadAttempt m 2]
        (attempt_events oracle m).1 := by
      rw [hAm]
      exact .cons₂ _ (.cons _ (.cons₂ _ (.cons₂ _ (.cons _ (.cons₂ _
        (.cons₂ _ .slnil))))))
    obtain ⟨s, t, hst⟩ := run_loop_reaches oracle fs rdl m el₁ el₂ hsplit hel
    have hin : List.Sublist (attempt_events oracle m).1 (run_loop oracle fs rdl).trace := by
      rw [hst]
      exact (List.sublist_append_left _ t).trans
        (List.sublist_append_right s _)
    exact sublist_trace_of_reach b k p nid rdl live oracle c fs hfound _
      (hsub.trans hin)
  · rw [hrdata, hrd]
    show (((⟨rdl.upload_id, rdl.parts ++ R⟩ : ResumeData).parts).map
      (fun r => r.part_num)).count m = 1
    exact hcount
  · rw [hmemp, hmem]
    exact hcount

theorem C6_retry_backoff_single_record_witness :
    List.Sublist [Event.uploadAttempt 2 0, Event.sleep 1, Event.uploadAttempt 2 1,
        Event.sleep 2, Event.uploadAttempt 2 2]
      (multipart_upload_with_resume "b" "k" "f.bin"
        (some ⟨"u", [⟨1, "e1", 52428800⟩]⟩) "n" ["u"]
        (fun _ a => if a ≤ 1 then Except.error "boom" else Except.ok "et")
        true 52428801).trace ∧
    (uploaded_part_nums
      (multipart_upload_with_resume "b" "k" "f.bin"
        (some ⟨"u", [⟨1, "e1", 52428800⟩]⟩) "n" ["u"]
        (fun _ a => if a ≤ 1 then Except.error "boom" else Except.ok "et")
        true 52428801).resumeData).count 2 = 1 ∧
    ((multipart_upload_with_resume "b" "k" "f.bin"
        (some ⟨"u", [⟨1, "e1", 52428800⟩]⟩) "n" ["u"]
        (fun _ a => if a ≤ 1 then Except.error "boom" else Except.ok "et")
        true 52428801).memParts.map (fun r => r.part_num)).count 2 = 1 :=
  C6_retry_backoff_single_record "b" "k" "f.bin" "n" ⟨"u", [⟨1, "e1", 52428800⟩]⟩
    ["u"] (fun _ a => if a ≤ 1 then Except.error "boom" else Except.ok "et")
    true 52428801 2 [] [] "boom" "boom" "et"
    (by decide) (by decide) (by decide) rfl rfl rfl

theorem runout_disk (t : List Event) (rp : String) (d : Option ResumeData)
    (rd : ResumeData) (mem : List PartRecord) (r : PyResult (Option String)) :
    (RunOut.mk t rp d rd mem r).disk = d := rfl

theorem runout_result (t : List Event) (rp : String) (d : Option ResumeData)
    (rd : ResumeData) (mem : List PartRecord) (r : PyResult (Option String)) :
    (RunOut.mk t rp d rd mem r).result = r := rfl

theorem session_msg_ne_part_failed_msg : ∀ n, session_not_found_msg ≠ part_failed_msg n := by
  intro n h
  have h2 := congrArg (fun s => s.data[2]?) h
  have e1 : session_not_found_msg.data[2]? = some '无' := by decide
  have e2 : (part_failed_msg n).data[2]? = some '分' := by
    unfold part_failed_msg
    rw [String.data_append, String.data_append]
    have hb1 : (2 : Nat) < ("❌ 分片 ".data ++ (toString n).data).length := by
      rw [List.length_append]
      have hl : ("❌ 分片 ").data.length = 5 := by decide
      omega
    rw [List.getElem?_append_left hb1,
      List.getElem?_append_left (show (2 : Nat) < ("❌ 分片 ").data.length by decide)]
    decide
  simp only [] at h2
  rw [e1, e2] at h2
  exact absurd h2 (by decide)

/-- C7: in both the fresh and the resuming branch, when the listing of live
multipart sessions contains no session whose id equals the loaded or created
`upload_id`, the run returns None before any part upload is attempted, the
local resume record is left on disk, and the fatal message printed on this path
differs from the message printed when a part exhausts its retries, so the two
conditions are distinguishable in the run's output. -/
theorem C7_session_not_found (b k p nid : String) (disk0 : Option ResumeData)
    (live : List String) (oracle : Nat → Nat → Except String String) (c : Bool)
    (fs : Nat) (hnf : (loaded_rd disk0 nid).upload_id ∉ live) :
    (multipart_upload_with_resume b k p disk0 nid live oracle c fs).result =
      .ret none ∧
    (∀ n a, Event.uploadAttempt n a ∉
      (multipart_upload_with_resume b k p disk0 nid live oracle c fs).trace) ∧
    (multipart_upload_with_resume b k p disk0 nid live oracle c fs).disk =
      some (loaded_rd disk0 nid) ∧
    Event.printMsg session_not_found_msg ∈
      (multipart_upload_with_resume b k p disk0 nid live oracle c fs).trace ∧
    (∀ n, session_not_found_msg ≠ part_failed_msg n) := by
  have h := multipart_notfound b k p disk0 nid live oracle c fs hnf
  refine ⟨(congrArg RunOut.result h).trans (runout_result _ _ _ _ _ _), ?_,
    (congrArg RunOut.disk h).trans (runout_disk _ _ _ _ _ _), ?_,
    session_msg_ne_part_failed_msg⟩
  · intro n a
    rw [multipart_trace_notfound b k p disk0 nid live oracle c fs hnf]
    cases disk0 <;> simp [branch_events]
  · rw [multipart_trace_notfound b k p disk0 nid live oracle c fs hnf]
    exact List.mem_append_right _ (by simp)

theorem C7_session_not_found_witness :
    ((multipart_upload_with_resume "b" "k" "f.bin" (some ⟨"u", []⟩) "n" []
        (fun _ _ => Except.ok "e") true 52428801).result = .ret none ∧
    (∀ n a, Event.uploadAttempt n a ∉
      (multipart_upload_with_resume "b" "k" "f.bin" (some ⟨"u", []⟩) "n" []
        (fun _ _ => Except.ok "e") true 52428801).trace) ∧
    (multipart_upload_with_resume "b" "k" "f.bin" (some ⟨"u", []⟩) "n" []
        (fun _ _ => Except.ok "e") true 52428801).disk =
      some (loaded_rd (some ⟨"u", []⟩) "n") ∧
    Event.printMsg session_not_found_msg ∈
      (multipart_upload_with_resume "b" "k" "f.bin" (some ⟨"u", []⟩) "n" []
        (fun _ _ => Except.ok "e") true 52428801).trace ∧
    (∀ n, session_not_found_msg ≠ part_failed_msg n)) :=
  C7_session_not_found "b" "k" "f.bin" "n" (some ⟨"u", []⟩) []
    (fun _ _ => Except.ok "e") true 52428801 (by decide)

/-- Environment variables required by `_validate_config` (line 28). -/
def required_vars : List String :=
  ["KS3_ACCESS_KEY", "KS3_SECRET_KEY", "KS3_ENDPOINT", "KS3_BUCKET"]

/-- Python truthiness of `os.getenv(var)`: falsy when the variable is unset or
set to the empty string (the `not os.getenv(var)` test at line 29). -/
def env_falsy : Option String → Bool
  | none => true
  | some s => s = ""

/-- Shallow embedding of `_validate_config` (lines 27-31): raises ValueError
when any required variable is missing. -/
def validate_config (getenv : String → Option String) : PyResult Unit :=
  if (required_vars.filter (fun v => env_falsy (getenv v))).isEmpty then .ret ()
  else .exc ("ValueError: 缺少以下环境变量配置: " ++
    String.intercalate ", " (required_vars.filter (fun v => env_falsy (getenv v))))

/-- Shallow embedding of `upload_file` (lines 33-56): raises FileNotFoundError
for a missing local file (line 35), dispatches to the multipart engine above
100 MiB (lines 42-43), and otherwise does a single-shot put whose failure is
caught and returned as None (lines 44-56); `single_ok` is whether the
single-shot transfer succeeds. -/
def upload_file (bucket_name remote_key local_path : String) (file_exists : Bool)
    (file_size : Nat) (single_ok : Bool) (disk0 : Option ResumeData)
    (new_upload_id : String) (live_session_ids : List String)
    (oracle : Nat → Nat → Except String String) (complete_ok : Bool) :
    PyResult (Option String) :=
  if file_exists = false then
    .exc ("FileNotFoundError: 本地文件不存在: " ++ local_path)
  else if single_shot_threshold < file_size then
    (multipart_upload_with_resume bucket_name remote_key local_path disk0
      new_upload_id live_session_ids oracle complete_ok file_size).result
  else if single_ok then .ret (some ("ks3://" ++ bucket_name ++ "/" ++ remote_key))
  else .ret none

theorem upload_file_multipart (b k p : String) (fs : Nat) (so : Bool)
    (d : Option ResumeData) (nid : String) (lv : List String)
    (orc : Nat → Nat → Except String String) (c : Bool)
    (hfs : single_shot_threshold < fs) :
    upload_file b k p true fs so d nid lv orc c =
      (multipart_upload_with_resume b k p d nid lv orc c fs).result := by
  unfold upload_file
  rw [if_neg (show ¬(true = false) by decide), if_pos hfs]

/-- C8 counterexample: `upload_file` raises (FileNotFoundError) for a missing
local file instead of returning a failure value, so the Dispatcher does let an
exception cross the system boundary. -/
theorem C8_counterexample_raises :
    upload_file "b" "k" "f.bin" false 0 true none "u" []
      (fun _ _ => Except.ok "e") true =
      .exc ("FileNotFoundError: 本地文件不存在: f.bin") ∧
    (∀ v, upload_file "b" "k" "f.bin" false 0 true none "u" []
      (fun _ _ => Except.ok "e") true ≠ .ret v) :=
  ⟨rfl, fun _ h => PyResult.noConfusion h⟩

/-- C8 (amended): the Dispatcher/Orchestrator does not convert every failure
into a returned failure value: a missing local file raises FileNotFoundError
and missing configuration raises ValueError (both caught only by the CLI main),
and a failed remote completion propagates an exception out of
`multipart_upload_with_resume`; only a session-not-found condition and a part
that exhausts its retries are returned as a `None` failure value. -/
theorem C8_failure_surface_amended :
    (∀ b k p fs so d nid lv orc c,
      upload_file b k p false fs so d nid lv orc c =
        .exc ("FileNotFoundError: 本地文件不存在: " ++ p)) ∧
    (∀ g v, v ∈ required_vars → env_falsy (g v) = true →
      ∃ msg, validate_config g = .exc msg) ∧
    (∀ b k p fs so d nid lv orc c, single_shot_threshold < fs →
      (loaded_rd d nid).upload_id ∉ lv →
      upload_file b k p true fs so d nid lv orc c = .ret none) ∧
    (∀ b k p fs so d nid lv orc, single_shot_threshold < fs →
      (loaded_rd d nid).upload_id ∈ lv →
      (run_loop orc fs (loaded_rd d nid)).ok = true →
      upload_file b k p true fs so d nid lv orc false =
        .exc "complete_upload failed") ∧
    (∀ b k p fs so nid lv orc c rdl m el₁ el₂, single_shot_threshold < fs →
      rdl.upload_id ∈ lv →
      eligible (uploaded_part_nums rdl) (parts_index_list fs) = el₁ ++ m :: el₂ →
      (∀ j ∈ el₁, succ3 orc j = true) → succ3 orc m = false →
      upload_file b k p true fs so (some rdl) nid lv orc c = .ret none) := by
  refine ⟨?_, ?_, ?_, ?_, ?_⟩
  · intro b k p fs so d nid lv orc c
    rfl
  · intro g v hv hf
    have hvmem : v ∈ required_vars.filter (fun w => env_falsy (g w)) :=
      List.mem_filter.mpr ⟨hv, hf⟩
    have hne : ¬ ((required_vars.filter (fun w => env_falsy (g w))).isEmpty = true) := by
      intro h
      rw [List.isEmpty_iff] at h
      rw [h] at hvmem
      exact absurd hvmem (List.not_mem_nil v)
    refine ⟨"ValueError: 缺少以下环境变量配置: " ++
      String.intercalate ", " (required_vars.filter (fun w => env_falsy (g w))), ?_⟩
    unfold validate_config
    rw [if_neg hne]
  · intro b k p fs so d nid lv orc c hfs hnf
    rw [upload_file_multipart b k p fs so d nid lv orc c hfs]
    exact (congrArg RunOut.result
      (multipart_notfound b k p d nid lv orc c fs hnf)).trans
      (runout_result _ _ _ _ _ _)
  · intro b k p fs so d nid lv orc hfs hfound hok
    rw [upload_file_multipart b k p fs so d nid lv orc false hfs]
    exact (congrArg RunOut.result
      (multipart_found_ok_cfalse b k p d nid lv orc fs hfound hok)).trans
      (runout_result _ _ _ _ _ _)
  · intro b k p fs so nid lv orc c rdl m el₁ el₂ hfs hfound hsplit h1 hm
    rw [upload_file_multipart b k p fs so (some rdl) nid lv orc c hfs]
    have hok : (run_loop orc fs (loaded_rd (some rdl) nid)).ok = false := by
      obtain ⟨R, _, _, _, h4, _, _⟩ := run_loop_spec orc fs rdl
      show (run_loop orc fs rdl).ok = false
      rw [h4, hsplit]
      exact all_middle_false el₁ m el₂ hm
    exact (congrArg RunOut.result
      (multipart_found_abort b k p (some rdl) nid lv orc c fs hfound hok)).trans
      (runout_result _ _ _ _ _ _)

theorem C8_failure_surface_amended_witness :
    (upload_file "b" "k" "f.bin" false 0 true none "u" []
      (fun _ _ => Except.ok "e") true =
      .exc ("FileNotFoundError: 本地文件不存在: " ++ "f.bin")) ∧
    (∃ msg, validate_config (fun _ => none) = .exc msg) ∧
    (upload_file "b" "k" "f.bin" true 104857601 true none "u" []
      (fun _ _ => Except.ok "e") true = .ret none) ∧
    (upload_file "b" "k" "f.bin" true 104857601 true none "u" ["u"]
      (fun _ _ => Except.ok "e") false = .exc "complete_upload failed") ∧
    (upload_file "b" "k" "f.bin" true 104857601 true (some ⟨"u", []⟩) "n" ["u"]
      (fun _ _ => Except.error "boom") true = .ret none) :=
  ⟨C8_failure_surface_amended.1 "b" "k" "f.bin" 0 true none "u" []
     (fun _ _ => Except.ok "e") true,
   C8_failure_surface_amended.2.1 (fun _ => none) "KS3_BUCKET" (by decide) rfl,
   C8_failure_surface_amended.2.2.1 "b" "k" "f.bin" 104857601 true none "u" []
     (fun _ _ => Except.ok "e") true (by decide) (by decide),
   C8_failure_surface_amended.2.2.2.1 "b" "k" "f.bin" 104857601 true none "u"
     ["u"] (fun _ _ => Except.ok "e") (by decide) (by decide) (by decide),
   C8_failure_surface_amended.2.2.2.2 "b" "k" "f.bin" 104857601 true "n" ["u"]
     (fun _ _ => Except.error "boom") true ⟨"u", []⟩ 1 [] [2, 3] (by decide)
     (by decide) (by decide) (by decide) (by decide)⟩

/-- The Resume Store delete operation of the code is `os.remove(resume_path)`
(line 125): it removes the record when the file exists, and raises
FileNotFoundError when the file is already absent. The store state is the
current on-disk record (`none` when absent); a successful delete returns the
resulting state. -/
def resume_delete (disk : Option ResumeData) : PyResult (Option ResumeData) :=
  match disk with
  | some _ => .ret none
  | none => .exc "FileNotFoundError"

/-- C9 counterexample: after a first delete empties the store, the second
delete call finds the record absent and raises FileNotFoundError instead of
succeeding — `os.remove` is not idempotent, refuting the claim at the concrete
store holding the record `{upload_id := "u", parts := []}`. -/
theorem C9_counterexample_second_delete_fails :
    resume_delete (some ⟨"u", []⟩) = .ret none ∧
    resume_delete none = .exc "FileNotFoundError" ∧
    (∀ v, resume_delete none ≠ .ret v) :=
  ⟨rfl, rfl, fun _ h => PyResult.noConfusion h⟩

/-- C9 (amended): the delete operation removes the record when it is present,
but deleting an already-absent record raises FileNotFoundError (`os.remove`),
so the second of two consecutive deletes fails; delete is not idempotent. -/
theorem C9_delete_not_idempotent_amended :
    (∀ rd : ResumeData, resume_delete (some rd) = .ret none) ∧
    resume_delete none = .exc "FileNotFoundError" :=
  ⟨fun _ => rfl, rfl⟩

theorem takeWhile_all {α : Type} {p : α → Bool} :
    ∀ l : List α, (∀ c ∈ l, p c = true) → l.takeWhile p = l := by
  intro l
  induction l with
  | nil => intro _; rfl
  | cons x xs ih =>
    intro h
    rw [List.takeWhile_cons, h x (List.mem_cons_self x xs),
      ih (fun y hy => h y (List.mem_cons_of_mem _ hy))]
    rfl

theorem basename_no_slash (q : String) (h : '/' ∉ q.data) : basename q = q := by
  unfold basename
  rw [takeWhile_all q.data.reverse (fun c hc => by
    rw [bne_iff_ne]
    intro he
    rw [he] at hc
    exact h (List.mem_reverse.mp hc))]
  rw [List.reverse_reverse]

theorem basename_strip_dir (dir q : String) (h : '/' ∉ q.data) :
    basename (dir ++ "/" ++ q) = q := by
  unfold basename
  rw [String.data_append, String.data_append,
    show ("/" : String).data = ['/'] from rfl,
    List.reverse_append, List.reverse_append, List.reverse_singleton,
    List.singleton_append,
    takeWhile_middle_false q.data.reverse '/' dir.data.reverse
      (fun c hc => by
        rw [bne_iff_ne]
        intro he
        rw [he] at hc
        exact h (List.mem_reverse.mp hc))
      (by rfl),
    List.reverse_reverse]

theorem runout_resumePath (t : List Event) (rp : String) (d : Option ResumeData)
    (rd : ResumeData) (mem : List PartRecord) (r : PyResult (Option String)) :
    (RunOut.mk t rp d rd mem r).resumePath = rp := rfl

theorem multipart_resumePath (b k p : String) (d : Option ResumeData)
    (nid : String) (lv : List String) (orc : Nat → Nat → Except String String)
    (c : Bool) (fs : Nat) :
    (multipart_upload_with_resume b k p d nid lv orc c fs).resumePath =
      resume_path p := by
  by_cases hf : (loaded_rd d nid).upload_id ∈ lv
  · cases hok : (run_loop orc fs (loaded_rd d nid)).ok with
    | true =>
      cases c with
      | true =>
        exact (congrArg RunOut.resumePath
          (multipart_found_ok_ctrue b k p d nid lv orc fs hf hok)).trans
          (runout_resumePath _ _ _ _ _ _)
      | false =>
        exact (congrArg RunOut.resumePath
          (multipart_found_ok_cfalse b k p d nid lv orc fs hf hok)).trans
          (runout_resumePath _ _ _ _ _ _)
    | false =>
      exact (congrArg RunOut.resumePath
        (multipart_found_abort b k p d nid lv orc c fs hf hok)).trans
        (runout_resumePath _ _ _ _ _ _)
  · exact (congrArg RunOut.resumePath
      (multipart_notfound b k p d nid lv orc c fs hf)).trans
      (runout_resumePath _ _ _ _ _ _)

/-- C10: the resume-record path used by `multipart_upload_with_resume` is
`".resume_" + basename(local_path) + ".json"` in the current working
directory; it does not depend on the remote key, and it ignores the directory
part of the local path, so two uploads of the same local file to different
remote keys — or of two different files sharing a base name — use the same
resume-record path. -/
theorem C10_resume_record_path (b k p nid : String) (d : Option ResumeData)
    (lv : List String) (orc : Nat → Nat → Except String String) (c : Bool)
    (fs : Nat) :
    (multipart_upload_with_resume b k p d nid lv orc c fs).resumePath =
      ".resume_" ++ basename p ++ ".json" ∧
    (∀ k2, (multipart_upload_with_resume b k2 p d nid lv orc c fs).resumePath =
      (multipart_upload_with_resume b k p d nid lv orc c fs).resumePath) ∧
    (∀ dir q, '/' ∉ q.data →
      resume_path (dir ++ "/" ++ q) = resume_path q) ∧
    (∀ p1 p2, basename p1 = basename p2 → resume_path p1 = resume_path p2) := by
  refine ⟨?_, ?_, ?_, ?_⟩
  · exact (multipart_resumePath b k p d nid lv orc c fs).trans rfl
  · intro k2
    rw [multipart_resumePath b k2 p d nid lv orc c fs,
      multipart_resumePath b k p d nid lv orc c fs]
  · intro dir q hq
    unfold resume_path
    rw [basename_strip_dir dir q hq, basename_no_slash q hq]
  · intro p1 p2 h
    unfold resume_path
    rw [h]

theorem C10_resume_record_path_witness :
    ((multipart_upload_with_resume "b" "k" "/a/data.bin" (some ⟨"u", []⟩) "n"
        ["u"] (fun _ _ => Except.ok "e") true 52428801).resumePath =
      ".resume_" ++ basename "/a/data.bin" ++ ".json") ∧
    ('/' ∉ ("data.bin" : String).data ∧
      resume_path ("/a" ++ "/" ++ "data.bin") = resume_path "data.bin") ∧
    resume_path "/a/data.bin" = ".resume_data.bin.json" :=
  ⟨(C10_resume_record_path "b" "k" "/a/data.bin" "n" (some ⟨"u", []⟩) ["u"]
      (fun _ _ => Except.ok "e") true 52428801).1,
   ⟨by decide,
    (C10_resume_record_path "b" "k" "/a/data.bin" "n" (some ⟨"u", []⟩) ["u"]
      (fun _ _ => Except.ok "e") true 52428801).2.2.1 "/a" "data.bin" (by decide)⟩,
   by decide⟩
